import Mathlib

/-!
Verification development for the CV-generation service (`script.py`).

The Python program is shallowly embedded: JSON/YAML documents become the
inductive type `Json` (mappings are association lists, preserving insertion
order exactly as Python 3.7+ dicts do), fallible dictionary indexing becomes
`Except PyErr`, and the stateful pipeline (`generate_resume_pdf`,
`upload_json`) becomes explicit state passing over a file-system model,
parameterised by an environment describing the external collaborators
(the Gemini service, `yaml.safe_load` on free-form text, the `rendercv`
executable, the base template file).
-/

set_option maxHeartbeats 1000000

namespace CVGen

/-- JSON/YAML-like structured values.  Mappings are association lists in
insertion order (Python dicts preserve insertion order).  Numbers are
modelled as integers (the résumé schema uses strings for dates; floats do
not occur in the claims). -/
inductive Json where
  | str : String → Json
  | num : Int → Json
  | bool : Bool → Json
  | null : Json
  | arr : List Json → Json
  | obj : List (String × Json) → Json
deriving Repr, BEq

/-- Python truthiness of a value (`if x:`): empty strings, zero, `False`,
`None`, empty lists and empty dicts are falsy. -/
def truthy : Json → Bool
  | .str s => !(s == "")
  | .num n => !(n == 0)
  | .bool b => b
  | .null => false
  | .arr l => !l.isEmpty
  | .obj l => !l.isEmpty

/-- Pure lookup of a key in a mapping (`none` when absent or when the value
is not a mapping). -/
def getKey? : Json → String → Option Json
  | .obj l, k => (l.find? (fun p => p.1 == k)).map Prod.snd
  | _, _ => none

/-- `d.get(k, default)` as a pure value on mappings. -/
def lookupD (j : Json) (k : String) (d : Json) : Json := (getKey? j k).getD d

/-- `k in d` for a mapping. -/
def hasKey (j : Json) (k : String) : Bool := (getKey? j k).isSome

def isObj : Json → Bool
  | .obj _ => true
  | _ => false

/-- Python exceptions that the embedded code can raise. `keyError k` models
`KeyError(k)` (the spec's `MissingRequiredField` for the required résumé
fields); `typeError` collapses `TypeError`/`AttributeError` raised when an
operation is applied to a value of the wrong shape. -/
inductive PyErr where
  | keyError : String → PyErr
  | typeError : PyErr
  | fileNotFound : String → PyErr
  | yamlError : PyErr
  | calledProcessError : PyErr
deriving Repr, DecidableEq

/-- `d[k]`: `KeyError` when the key is absent, `TypeError` when `d` is not a
mapping. -/
def getItem (j : Json) (k : String) : Except PyErr Json :=
  match j, getKey? j k with
  | .obj _, some v => .ok v
  | .obj _, none => .error (.keyError k)
  | _, _ => .error .typeError

/-- `d.get(k)`: a missing key yields Python `None` (i.e. `null`); calling
`.get` on a non-mapping raises. -/
def dictGet (j : Json) (k : String) : Except PyErr Json :=
  match j with
  | .obj _ => .ok (lookupD j k .null)
  | _ => .error .typeError

/-- `d.get(k, default)`. -/
def dictGetD (j : Json) (k : String) (d : Json) : Except PyErr Json :=
  match j with
  | .obj _ => .ok (lookupD j k d)
  | _ => .error .typeError

/-- `s.lower()` (character-wise, as in Python for ASCII input). -/
def pyLower (s : String) : String := String.mk (s.data.map Char.toLower)

/-- `s.strip()`: remove whitespace from both ends. -/
def pyStrip (s : String) : String :=
  String.mk (((s.data.dropWhile Char.isWhitespace).reverse.dropWhile Char.isWhitespace).reverse)

mutual

/-- Python `repr` of a value (string quoting simplified: no escaping). -/
def pyRepr : Json → String
  | .str s => "'" ++ s ++ "'"
  | .num n => toString n
  | .bool b => if b then "True" else "False"
  | .null => "None"
  | .arr l => "[" ++ pyReprList l ++ "]"
  | .obj l => "\x7b" ++ pyReprObj l ++ "\x7d"

def pyReprList : List Json → String
  | [] => ""
  | [x] => pyRepr x
  | x :: y :: xs => pyRepr x ++ ", " ++ pyReprList (y :: xs)

def pyReprObj : List (String × Json) → String
  | [] => ""
  | [(k, v)] => "'" ++ k ++ "': " ++ pyRepr v
  | (k, v) :: y :: xs => "'" ++ k ++ "': " ++ pyRepr v ++ ", " ++ pyReprObj (y :: xs)

end

/-- Python `str` (as used inside f-strings): strings unquoted, containers as
their `repr`. -/
def pyStr : Json → String
  | .str s => s
  | j => pyRepr j

mutual

/-- Model of `yaml.dump(value, sort_keys=False)`: a flow-style YAML
serialization that walks mappings in insertion order (this is the library's
documented behaviour with `sort_keys=False`). -/
def yaml_dump : Json → String
  | .str s => s
  | .num n => toString n
  | .bool b => if b then "true" else "false"
  | .null => "null"
  | .arr l => "[" ++ yamlDumpList l ++ "]"
  | .obj l => "\x7b" ++ yamlDumpObj l ++ "\x7d"

def yamlDumpList : List Json → String
  | [] => ""
  | [x] => yaml_dump x
  | x :: y :: xs => yaml_dump x ++ ", " ++ yamlDumpList (y :: xs)

def yamlDumpObj : List (String × Json) → String
  | [] => ""
  | [(k, v)] => k ++ ": " ++ yaml_dump v
  | (k, v) :: y :: xs => k ++ ": " ++ yaml_dump v ++ ", " ++ yamlDumpObj (y :: xs)

end

mutual

/-- The sequence of mapping keys in the order a `sort_keys=False` YAML dump
emits them (insertion order for each mapping, recursively). -/
def yamlEmitKeys : Json → List String
  | .obj l => yamlEmitKeysObj l
  | .arr l => yamlEmitKeysArr l
  | _ => []

def yamlEmitKeysObj : List (String × Json) → List String
  | [] => []
  | (k, v) :: rest => k :: (yamlEmitKeys v ++ yamlEmitKeysObj rest)

def yamlEmitKeysArr : List Json → List String
  | [] => []
  | v :: rest => yamlEmitKeys v ++ yamlEmitKeysArr rest

end

namespace JSONResumeConverter

/-- `_format_location`: `f"{location['city']}, {location['countryCode']}" if
location else ""`. -/
def format_location (location : Json) : Except PyErr String :=
  if truthy location then do
    let c ← getItem location "city"
    let cc ← getItem location "countryCode"
    pure (pyStr c ++ ", " ++ pyStr cc)
  else pure ""

/-- The fixed `networks` dict of `_format_social_networks`. -/
def networks : List (String × String) :=
  [("github", "GitHub"), ("linkedin", "LinkedIn"), ("default", "GitHub")]

/-- `networks["default"]`. -/
def networksDefault : String := "GitHub"

/-- One element of the `_format_social_networks` list comprehension. -/
def formatProfile (profile : Json) : Except PyErr Json := do
  let nv ← dictGetD profile "network" (.str "")
  match nv with
  | .str s => do
    let network := ((networks.find? (fun p => p.1 == pyLower s)).map Prod.snd).getD networksDefault
    let username ← dictGetD profile "username" (.str "")
    pure (.obj [("network", .str network), ("username", username)])
  | _ => .error .typeError

/-- A Python list comprehension over a list: left-to-right, propagating the
first exception. -/
def listCompr (f : Json → Except PyErr Json) : List Json → Except PyErr (List Json)
  | [] => .ok []
  | x :: xs => do
    let y ← f x
    let ys ← listCompr f xs
    pure (y :: ys)

/-- `_format_social_networks` applied to the value of
`basics.get("profiles", [])`; iterating a non-list is collapsed to a type
error (the claims only quantify over list-valued `profiles`). -/
def format_social_networks (profiles : Json) : Except PyErr Json :=
  match profiles with
  | .arr l => (listCompr formatProfile l).map Json.arr
  | _ => .error .typeError

/-- `", ".join(...)`-style extraction of a list of strings; any non-string
element raises `TypeError` as in Python. -/
def strList : List Json → Except PyErr (List String)
  | [] => .ok []
  | .str s :: xs => (strList xs).map (fun r => s :: r)
  | _ :: _ => .error .typeError

/-- `sep.join(v)` for a list value. -/
def pyJoin (sep : String) (v : Json) : Except PyErr String :=
  match v with
  | .arr l => (strList l).map (String.intercalate sep)
  | _ => .error .typeError

/-- One element of the `education` comprehension in `_build_sections`. -/
def eduItem (edu : Json) : Except PyErr Json := do
  let institution ← getItem edu "institution"
  let area ← getItem edu "area"
  let degree ← getItem edu "studyType"
  let start_date ← getItem edu "startDate"
  let end_date ← dictGetD edu "endDate" (.str "present")
  let highlights ← dictGetD edu "courses" (.arr [])
  pure (.obj [("institution", institution), ("area", area), ("degree", degree),
              ("start_date", start_date), ("end_date", end_date), ("highlights", highlights)])

/-- One element of the `work` comprehension in `_build_sections`. -/
def workItem (job : Json) : Except PyErr Json := do
  let company ← getItem job "name"
  let position ← getItem job "position"
  let location ← dictGetD job "location" (.str "")
  let start_date ← getItem job "startDate"
  let end_date ← dictGetD job "endDate" (.str "present")
  let highlights ← dictGetD job "highlights" (.arr [])
  pure (.obj [("company", company), ("position", position), ("location", location),
              ("start_date", start_date), ("end_date", end_date), ("highlights", highlights)])

/-- One element of the `publications` comprehension in `_build_sections`. -/
def pubItem (pub : Json) : Except PyErr Json := do
  let title ← getItem pub "name"
  let authors ← dictGetD pub "authors" (.arr [])
  let date ← getItem pub "releaseDate"
  let doi ← dictGet pub "doi"
  let url ← dictGet pub "url"
  pure (.obj [("title", title), ("authors", authors), ("date", date),
              ("doi", doi), ("url", url)])

/-- One element of the `projects` comprehension in `_build_sections`. -/
def projItem (proj : Json) : Except PyErr Json := do
  let name ← getItem proj "name"
  let date ← dictGetD proj "startDate" (.str "")
  let description ← dictGetD proj "description" (.str "")
  pure (.obj [("name", name), ("date", date), ("highlights", Json.arr [description])])

/-- One element of the `skills` comprehension in `_build_sections`. -/
def skillItem (skill : Json) : Except PyErr Json := do
  let label ← getItem skill "name"
  let kw ← getItem skill "keywords"
  let details ← pyJoin ", " kw
  pure (.obj [("label", label), ("details", Json.str details)])

/-- One element of the `awards` comprehension in `_build_sections`. -/
def awardItem (award : Json) : Except PyErr Json := do
  let label ← getItem award "title"
  let details ← getItem award "awarder"
  pure (.obj [("label", label), ("details", details)])

/-- One `if json_resume.get(inKey): sections[outKey] = [...]` block of
`_build_sections`: append the section when the input value is truthy. -/
def buildListSection (json_resume : Json) (inKey outKey : String)
    (mk : Json → Except PyErr Json) (acc : List (String × Json)) :
    Except PyErr (List (String × Json)) := do
  let v ← dictGet json_resume inKey
  if truthy v then
    match v with
    | .arr l => do
      let items ← listCompr mk l
      pure (acc ++ [(outKey, Json.arr items)])
    | _ => .error .typeError
  else pure acc

/-- The `if json_resume["basics"].get("summary"): sections["summary"] = ...`
block of `_build_sections`. -/
def summarySection (basics : Json) : Except PyErr (List (String × Json)) := do
  let summaryV ← dictGet basics "summary"
  if truthy summaryV then do
    let sv ← getItem basics "summary"
    pure [("summary", Json.arr [sv])]
  else pure ([] : List (String × Json))

/-- `_build_sections`. -/
def build_sections (json_resume : Json) : Except PyErr Json := do
  let basics ← getItem json_resume "basics"
  let s1 ← summarySection basics
  let s2 ← buildListSection json_resume "education" "education" eduItem s1
  let s3 ← buildListSection json_resume "work" "experience" workItem s2
  let s4 ← buildListSection json_resume "publications" "publications" pubItem s3
  let s5 ← buildListSection json_resume "projects" "projects" projItem s4
  let s6 ← buildListSection json_resume "skills" "technologies" skillItem s5
  let s7 ← buildListSection json_resume "awards" "awards" awardItem s6
  pure (.obj s7)

/-- `JSONResumeConverter.__init__`: builds `self.render_cv`, evaluating the
dict literal left to right exactly as Python does. -/
def init (json_resume : Json) : Except PyErr Json := do
  let basics ← getItem json_resume "basics"
  let name ← getItem basics "name"
  let locationV ← dictGet basics "location"
  let location ← format_location locationV
  let email ← getItem basics "email"
  let phone ← getItem basics "phone"
  let website ← dictGetD basics "url" (.str "")
  let profilesV ← dictGetD basics "profiles" (.arr [])
  let social_networks ← format_social_networks profilesV
  let sections ← build_sections json_resume
  pure (.obj [("cv", .obj [("name", name), ("location", .str location),
    ("email", email), ("phone", phone), ("website", website),
    ("social_networks", social_networks), ("sections", sections)])])

/-- Construction plus `convert()`: `yaml.dump(self.render_cv, sort_keys=False)`
(serialization itself is total and cannot raise). -/
def convert (json_resume : Json) : Except PyErr String :=
  (init json_resume).map yaml_dump

end JSONResumeConverter

/-- Outcome of `model.generate_content(...)` (plus `.text`/`.strip()` access):
either some exception is raised inside the service call, or a free-form text
comes back. -/
inductive GeminiOutcome where
  | raise : GeminiOutcome
  | ok : String → GeminiOutcome

/-- The fixed enhancement instruction f-string of
`enhance_resume_with_gemini`, with the résumé YAML interpolated. -/
def enhancement_prompt (yaml_content : String) : String :=
  "\n        You are a professional resume enhancement AI. Review the following resume YAML and provide suggestions to:\n        1. Improve language and descriptions\n        2. Highlight key achievements more effectively\n        3. Use action-oriented and impactful language\n        4. Ensure clarity and conciseness\n        5. Align descriptions with industry best practices\n\n        Original Resume YAML:\n        "
    ++ yaml_content
    ++ "\n\n        Please return the enhanced YAML, maintaining the exact same structure. Focus on making the resume more compelling and professional.\n        "

/-- `enhance_resume_with_gemini`.  The external service call is a parameter
`generate_content`; `yaml.safe_load` on the returned free-form text is a
parameter `safe_load` (`none` models a parse failure).  The function's outer
`except Exception` makes every failure fall back to the original
`yaml_content`, so the embedding is a total function. -/
def enhance_resume_with_gemini (generate_content : String → GeminiOutcome)
    (safe_load : String → Option Json) (yaml_content : String) : String :=
  match generate_content (enhancement_prompt yaml_content) with
  | .raise => yaml_content
  | .ok text =>
    let enhanced_yaml := pyStrip text
    match safe_load enhanced_yaml with
    | none => yaml_content
    | some _ => enhanced_yaml

/-- Python dict item assignment `d[k] = v` on an association list: replace
the value in place when the key exists (keeping its position), else append. -/
def setKey : List (String × Json) → String → Json → List (String × Json)
  | [], k, v => [(k, v)]
  | (k0, v0) :: rest, k, v =>
    if k0 == k then (k, v) :: rest else (k0, v0) :: setKey rest k v

/-- `base_yaml['cv'] = new_cv_data['cv']` (the template-merge step of
`generate_resume_pdf`): raises `KeyError` when the enhanced document has no
`cv` key and `TypeError` when a document is not a mapping. -/
def mergeCv (base_yaml new_cv_data : Json) : Except PyErr Json := do
  let cv ← getItem new_cv_data "cv"
  match base_yaml with
  | .obj l => pure (.obj (setKey l "cv" cv))
  | _ => .error .typeError

/-- `replace_bullet_in_yaml`, applied to the already-loaded YAML data:
returns `(true, updated)` when `design.highlights.bullet` was assigned and
the file rewritten, `(false, data)` when the function returned `False` —
either because the `design`/`highlights` path is missing, or because some
raised error (eg `TypeError` from assigning into a non-mapping
`design.highlights`) was caught; in every `False` case the file content is
left as it was. -/
def replace_bullet_core (data : Json) (new_bullet : String) : Bool × Json :=
  match data with
  | .obj dl =>
    match getKey? (.obj dl) "design" with
    | some (.obj designL) =>
      match getKey? (.obj designL) "highlights" with
      | some (.obj hlL) =>
        (true, .obj (setKey dl "design" (.obj (setKey designL "highlights"
          (.obj (setKey hlL "bullet" (.str new_bullet)))))))
      | some _ => (false, data)
      | none => (false, data)
    | some _ => (false, data)
    | none => (false, data)
  | _ => (false, data)

/-- The merge-and-normalize step of `generate_resume_pdf` (lines 232-244):
replace the base's `cv` subtree with the enhanced document's, write the
merged YAML and run `replace_bullet_in_yaml` on that file (the file
round-trip is modelled as the identity on the structured value). -/
def merge_and_normalize (base_yaml new_cv_data : Json) : Except PyErr Json := do
  let merged ← mergeCv base_yaml new_cv_data
  pure (replace_bullet_core merged "•").2

/-- The on-disk state: paths of existing files with their (structured)
contents.  Writing a file overwrites in place or appends; nothing in the
program ever removes a file. -/
abbrev FS := List (String × Json)

def setFile (fs : FS) (p : String) (v : Json) : FS := setKey fs p v

def readFile (fs : FS) (p : String) : Option Json :=
  (fs.find? (fun q => q.1 == p)).map Prod.snd

def INPUT_FOLDER : String := "temp/input"
def OUTPUT_FOLDER : String := "temp/output"
def BASE_YAML_PATH : String := "resume.yaml"

/-- `os.path.basename`: the part after the last `/`. -/
def lastComponent (l : List Char) : List Char :=
  l.foldl (fun acc c => if c == '/' then [] else acc ++ [c]) []

/-- Root part of `os.path.splitext`: everything before the last dot when a
dot occurs (leading-dot special cases do not arise for the generated
`<uuid>_resume.json` names). -/
def splitextRoot (l : List Char) : List Char :=
  if l.contains '.' then ((l.reverse.dropWhile (fun c => !(c == '.'))).drop 1).reverse
  else l

/-- `os.path.splitext(os.path.basename(json_file_path))[0]`. -/
def input_filename_of (p : String) : String :=
  String.mk (splitextRoot (lastComponent p.data))

/-- External collaborators of one pipeline run: the Gemini call, the YAML
parser applied to free-form model output, whether the `rendercv` executable
can be located, whether the renderer writes its PDF and exits with status 0,
and the parsed content of the base template `resume.yaml` (`none` models an
unreadable file). -/
structure Env where
  generate_content : String → GeminiOutcome
  safe_load : String → Option Json
  rendererPresent : Bool
  renderWrites : Bool
  renderExitZero : Bool
  base_yaml_file : Option Json

/-- `generate_resume_pdf`, step for step: read and parse the input JSON,
convert, enhance, compute the two output paths, load the base template,
parse the enhanced YAML, merge `cv`, write the merged YAML file, run
`replace_bullet_in_yaml` on it, then invoke `rendercv` as a subprocess
(`FileNotFoundError` when the executable is absent, `CalledProcessError` on
a non-zero exit, both raised only at invocation time).  Every raised
exception is logged and re-raised, leaving the file state as it was at the
raise point; no branch removes a file. -/
def generate_resume_pdf (env : Env) (json_file_path : String) (fs : FS) :
    Except PyErr String × FS :=
  match readFile fs json_file_path with
  | none => (.error (.fileNotFound json_file_path), fs)
  | some json_data =>
    match JSONResumeConverter.init json_data with
    | .error e => (.error e, fs)
    | .ok render_cv =>
      let new_cv_yaml := yaml_dump render_cv
      let enhanced_cv_yaml :=
        enhance_resume_with_gemini env.generate_content env.safe_load new_cv_yaml
      let input_filename := input_filename_of json_file_path
      let pdf_path := OUTPUT_FOLDER ++ "/" ++ input_filename ++ "_resume.pdf"
      let yaml_path := OUTPUT_FOLDER ++ "/" ++ input_filename ++ "_resume.yaml"
      match env.base_yaml_file with
      | none => (.error (.fileNotFound BASE_YAML_PATH), fs)
      | some base_yaml =>
        match env.safe_load enhanced_cv_yaml with
        | none => (.error .yamlError, fs)
        | some new_cv_data =>
          match mergeCv base_yaml new_cv_data with
          | .error e => (.error e, fs)
          | .ok merged =>
            let fs1 := setFile fs yaml_path merged
            let res := replace_bullet_core merged "•"
            let fs2 := if res.1 then setFile fs1 yaml_path res.2 else fs1
            if env.rendererPresent then
              let fs3 := if env.renderWrites then setFile fs2 pdf_path Json.null else fs2
              if env.renderExitZero then (.ok pdf_path, fs3)
              else (.error .calledProcessError, fs3)
            else (.error (.fileNotFound "rendercv"), fs2)

/-- `k in v` for arbitrary Python values (`in` is a substring test on
strings, membership on lists, key lookup on dicts, `TypeError` otherwise). -/
def pyContains (v : Json) (k : String) : Except PyErr Bool :=
  match v with
  | .obj l => .ok (l.any (fun p => p.1 == k))
  | .arr l => .ok (l.any (fun x => x == Json.str k))
  | .str s => .ok (decide ((s.splitOn k).length > 1))
  | _ => .error .typeError

inductive UploadResponse where
  | badRequest : String → UploadResponse
  | serverError : UploadResponse
  | success : String → String → UploadResponse
deriving Repr

/-- The `/upload` handler `upload_json`: content-type check, the
`not json_data or 'basics' not in json_data` guard (short-circuit, any raise
caught by the handler's `except` as a 500), save the request body under a
uuid-based name in the input folder, run `generate_resume_pdf`, and return
200 with the PDF path or 500 on any exception.  `request_uuid` stands for
the generated `uuid.uuid4()` string. -/
def upload_json (env : Env) (request_is_json : Bool) (json_data : Json)
    (request_uuid : String) (fs : FS) : UploadResponse × FS :=
  if !request_is_json then (.badRequest "Request must be JSON", fs)
  else if !truthy json_data then (.badRequest "Invalid JSON resume format", fs)
  else
    match pyContains json_data "basics" with
    | .error _ => (.serverError, fs)
    | .ok false => (.badRequest "Invalid JSON resume format", fs)
    | .ok true =>
      let filename := request_uuid ++ "_resume.json"
      let file_path := INPUT_FOLDER ++ "/" ++ filename
      let fs1 := setFile fs file_path json_data
      match generate_resume_pdf env file_path fs1 with
      | (.ok pdf_path, fs2) => (.success pdf_path filename, fs2)
      | (.error _, fs2) => (.serverError, fs2)

/-! ## Well-formedness of résumé inputs

A résumé is well formed when every field that is present has the shape the
résumé schema gives it (§4.1 of the spec): mappings where the code indexes,
lists where it iterates, strings where it lower-cases or joins, and the
per-item required fields present.  Presence of `basics`/`name`/`email`/
`phone` is deliberately NOT part of well-formedness — it is the separate
`reqFields` precondition, so that claims can quantify over its absence. -/

def isStrB : Json → Bool
  | .str _ => true
  | _ => false

def isStrArr : Json → Bool
  | .arr l => l.all isStrB
  | _ => false

def optIs (P : Json → Bool) : Option Json → Bool
  | none => true
  | some v => P v

/-- Every key of `ks` is present. -/
def reqKeys (j : Json) (ks : List String) : Bool := ks.all (fun k => hasKey j k)

def wfLocation : Json → Bool
  | .null => true
  | .obj l => hasKey (.obj l) "city" && hasKey (.obj l) "countryCode"
  | _ => false

def wfProfile (j : Json) : Bool := isObj j && optIs isStrB (getKey? j "network")

def wfEdu (j : Json) : Bool := isObj j && reqKeys j ["institution", "area", "studyType", "startDate"]

def wfWork (j : Json) : Bool := isObj j && reqKeys j ["name", "position", "startDate"]

def wfPub (j : Json) : Bool := isObj j && reqKeys j ["name", "releaseDate"]

def wfProj (j : Json) : Bool := isObj j && reqKeys j ["name"]

def wfSkill (j : Json) : Bool :=
  isObj j && reqKeys j ["name"] && optIs isStrArr (getKey? j "keywords") && hasKey j "keywords"

def wfAward (j : Json) : Bool := isObj j && reqKeys j ["title", "awarder"]

/-- An optional top-level list section: absent, or a list of well-formed
items. -/
def wfOptList (P : Json → Bool) : Option Json → Bool
  | none => true
  | some (.arr l) => l.all P
  | some _ => false

def wfBasics (b : Json) : Bool :=
  isObj b && wfLocation (lookupD b "location" .null)
    && optIs isStrB (getKey? b "summary")
    && wfOptList wfProfile (getKey? b "profiles")

def wfResume (r : Json) : Bool :=
  isObj r && optIs wfBasics (getKey? r "basics")
    && wfOptList wfEdu (getKey? r "education")
    && wfOptList wfWork (getKey? r "work")
    && wfOptList wfPub (getKey? r "publications")
    && wfOptList wfProj (getKey? r "projects")
    && wfOptList wfSkill (getKey? r "skills")
    && wfOptList wfAward (getKey? r "awards")

/-- The required-field precondition: `basics`, `basics.name`, `basics.email`
and `basics.phone` are present. -/
def reqFields (r : Json) : Bool :=
  match getKey? r "basics" with
  | some b => hasKey b "name" && hasKey b "email" && hasKey b "phone"
  | none => false

/-! ## Total value-level mirror of the converter

For well-formed inputs satisfying the required-field precondition the
fallible converter returns exactly these values (proved below); the claims
are then facts about `JSONResumeConverter.init` via this characterization. -/

namespace JSONResumeConverter

def format_location_val (location : Json) : String :=
  if truthy location then
    pyStr (lookupD location "city" .null) ++ ", " ++ pyStr (lookupD location "countryCode" .null)
  else ""

/-- The string value of a profile's `network` field (`""` when absent). -/
def networkNameOf (p : Json) : String :=
  match lookupD p "network" (.str "") with
  | .str s => s
  | _ => ""

def socialVal (p : Json) : Json :=
  .obj [("network", .str (((networks.find? (fun q => q.1 == pyLower (networkNameOf p))).map
          Prod.snd).getD networksDefault)),
        ("username", lookupD p "username" (.str ""))]

def socialListVal (profiles : Json) : Json :=
  match profiles with
  | .arr l => .arr (l.map socialVal)
  | _ => .arr []

def eduItemVal (edu : Json) : Json :=
  .obj [("institution", lookupD edu "institution" .null),
        ("area", lookupD edu "area" .null),
        ("degree", lookupD edu "studyType" .null),
        ("start_date", lookupD edu "startDate" .null),
        ("end_date", lookupD edu "endDate" (.str "present")),
        ("highlights", lookupD edu "courses" (.arr []))]

def workItemVal (job : Json) : Json :=
  .obj [("company", lookupD job "name" .null),
        ("position", lookupD job "position" .null),
        ("location", lookupD job "location" (.str "")),
        ("start_date", lookupD job "startDate" .null),
        ("end_date", lookupD job "endDate" (.str "present")),
        ("highlights", lookupD job "highlights" (.arr []))]

def pubItemVal (pub : Json) : Json :=
  .obj [("title", lookupD pub "name" .null),
        ("authors", lookupD pub "authors" (.arr [])),
        ("date", lookupD pub "releaseDate" .null),
        ("doi", lookupD pub "doi" .null),
        ("url", lookupD pub "url" .null)]

def projItemVal (proj : Json) : Json :=
  .obj [("name", lookupD proj "name" .null),
        ("date", lookupD proj "startDate" (.str "")),
        ("highlights", Json.arr [lookupD proj "description" (.str "")])]

def strListVal (l : List Json) : List String :=
  l.map (fun j => match j with | .str s => s | _ => "")

def keywordsOf (skill : Json) : List Json :=
  match getKey? skill "keywords" with
  | some (.arr l) => l
  | _ => []

def skillItemVal (skill : Json) : Json :=
  .obj [("label", lookupD skill "name" .null),
        ("details", .str (String.intercalate ", " (strListVal (keywordsOf skill))))]

def awardItemVal (award : Json) : Json :=
  .obj [("label", lookupD award "title" .null),
        ("details", lookupD award "awarder" .null)]

/-- Value of one optional list section: the key is emitted exactly when the
input value is a non-empty list. -/
def sectionVal (r : Json) (inKey outKey : String) (itemVal : Json → Json) :
    List (String × Json) :=
  match getKey? r inKey with
  | some (.arr l) => if l.isEmpty then [] else [(outKey, Json.arr (l.map itemVal))]
  | _ => []

def summaryVal (basics : Json) : List (String × Json) :=
  if truthy (lookupD basics "summary" .null) then
    [("summary", Json.arr [lookupD basics "summary" .null])]
  else []

def sectionsVal (r : Json) : Json :=
  .obj (summaryVal (lookupD r "basics" .null)
    ++ sectionVal r "education" "education" eduItemVal
    ++ sectionVal r "work" "experience" workItemVal
    ++ sectionVal r "publications" "publications" pubItemVal
    ++ sectionVal r "projects" "projects" projItemVal
    ++ sectionVal r "skills" "technologies" skillItemVal
    ++ sectionVal r "awards" "awards" awardItemVal)

def initVal (r : Json) : Json :=
  .obj [("cv", .obj [
    ("name", lookupD (lookupD r "basics" .null) "name" .null),
    ("location", .str (format_location_val (lookupD (lookupD r "basics" .null) "location" .null))),
    ("email", lookupD (lookupD r "basics" .null) "email" .null),
    ("phone", lookupD (lookupD r "basics" .null) "phone" .null),
    ("website", lookupD (lookupD r "basics" .null) "url" (.str "")),
    ("social_networks", socialListVal (lookupD (lookupD r "basics" .null) "profiles" (.arr []))),
    ("sections", sectionsVal r)])]

end JSONResumeConverter

/-- Keys of a mapping, in insertion order. -/
def objKeys : Json → List String
  | .obj l => l.map Prod.fst
  | _ => []

/-- The fixed insertion order of section keys stated by the spec. -/
def sectionOrder : List String :=
  ["summary", "education", "experience", "publications", "projects", "technologies", "awards"]

/-- Modelled from the spec: the spec's fixed network table
`github → GitHub, linkedin → LinkedIn` with default `GitHub`, for comparison
with the source's `networks` dict lookup. -/
def specNetMap (s : String) : String :=
  if s == "github" then "GitHub" else if s == "linkedin" then "LinkedIn" else "GitHub"

/-- The value of a successful conversion (placeholder `null` on failure);
used to state closed counterexamples without binders. -/
def okValue (e : Except PyErr Json) : Json :=
  match e with
  | .ok v => v
  | .error _ => .null

/-- Does `design.highlights` exist in `data` as a mapping? (The condition
under which `replace_bullet_in_yaml` actually rewrites the bullet.) -/
def designHighlightsIsMapping (data : Json) : Bool :=
  match getKey? data "design" with
  | some d =>
    match getKey? d "highlights" with
    | some (.obj _) => true
    | _ => false
  | none => false

/-- The `cv` mapping of a successful conversion. -/
def cvOf (r : Json) : Json := lookupD (okValue (JSONResumeConverter.init r)) "cv" .null

/-- The `sections` mapping of a successful conversion. -/
def sectionsOf (r : Json) : Json := lookupD (cvOf r) "sections" .null

/-- Keys contributed to `sections` by one optional list section. -/
def sectionKeyVal (r : Json) (inKey outKey : String) : List String :=
  match getKey? r inKey with
  | some (.arr l) => if l.isEmpty then [] else [outKey]
  | _ => []

/-- Keys contributed to `sections` by the summary block. -/
def summaryKeyVal (basics : Json) : List String :=
  if truthy (lookupD basics "summary" .null) then ["summary"] else []

/-- Did the embedded computation succeed (no exception)? -/
def exceptOk (e : Except PyErr Json) : Bool :=
  match e with
  | .ok _ => true
  | .error _ => false

/-! ## Concrete inputs used by witnesses and counterexamples -/

/-- The two example profiles from the spec's profile-mapping property. -/
def profsW : List Json :=
  [.obj [("network", .str "LinkedIn"), ("username", .str "jdoe")],
   .obj [("network", .str "twitter"), ("username", .str "x")]]

/-- A full well-formed résumé exercising most sections. -/
def basicsW : Json := .obj [
  ("name", .str "Jane Doe"), ("email", .str "jane@example.com"),
  ("phone", .str "555"), ("url", .str "https://jane.dev"),
  ("summary", .str "Engineer"),
  ("location", .obj [("city", .str "Oslo"), ("countryCode", .str "NO")]),
  ("profiles", .arr [
    .obj [("network", .str "LinkedIn"), ("username", .str "jdoe")],
    .obj [("network", .str "twitter"), ("username", .str "x")]])]

def rW : Json := .obj [
  ("basics", basicsW),
  ("work", .arr [.obj [("name", .str "ACME"), ("position", .str "Dev"),
    ("startDate", .str "2020-01")]]),
  ("education", .arr [.obj [("institution", .str "U"), ("area", .str "CS"),
    ("studyType", .str "BSc"), ("startDate", .str "2015"), ("endDate", .str "2018")]]),
  ("skills", .arr [.obj [("name", .str "Langs"),
    ("keywords", .arr [.str "python", .str "lean"])]]),
  ("awards", .arr [])]

/-- A minimal résumé with only the required fields. -/
def rMin : Json := .obj [("basics", .obj [("name", .str "A"),
  ("email", .str "e"), ("phone", .str "p")])]

/-- A résumé whose `basics.phone` is absent. -/
def rNoPhone : Json := .obj [("basics", .obj [("name", .str "Jane"),
  ("email", .str "j@x")])]

/-- A résumé with `basics.summary` present but equal to the empty string. -/
def rEmptySummary : Json := .obj [("basics", .obj [("name", .str "A"),
  ("email", .str "e"), ("phone", .str "p"), ("summary", .str "")])]

/-- A base template whose `design.highlights` exists but is a scalar, not a
mapping. -/
def baseScalarHighlights : Json := .obj [
  ("design", .obj [("highlights", .str "x")]),
  ("theme", .str "classic"), ("cv", .null)]

def newCvDoc : Json := .obj [("cv", .obj [("name", .str "X")])]

/-- An environment in which every external collaborator behaves: the Gemini
call raises (so enhancement falls back), parsing the enhanced text gives a
document with a `cv` key, the renderer is present, writes its PDF and exits
0, and the base template loads. -/
def envOk : Env := {
  generate_content := fun _ => .raise,
  safe_load := fun _ => some newCvDoc,
  rendererPresent := true,
  renderWrites := true,
  renderExitZero := true,
  base_yaml_file := some (.obj [
    ("design", .obj [("highlights", .obj [("bullet", .str "*")])]),
    ("cv", .null)]) }

/-- `envOk`, except the `rendercv` executable cannot be located. -/
def envNoRenderer : Env := { envOk with rendererPresent := false }

/-- A file system already holding one uploaded input JSON. -/
def fsA : FS := [("temp/input/a.json", rMin)]

/-! ## Basic lemmas about the embedding -/

@[simp] theorem except_bind_ok {α β : Type} (a : α) (f : α → Except PyErr β) :
    (Except.ok a >>= f) = f a := rfl

@[simp] theorem except_bind_error {α β : Type} (e : PyErr) (f : α → Except PyErr β) :
    ((Except.error e : Except PyErr α) >>= f) = .error e := rfl

@[simp] theorem except_map_ok {α β : Type} (a : α) (f : α → β) :
    (Except.ok a : Except PyErr α).map f = .ok (f a) := rfl

@[simp] theorem except_fmap_ok {α β : Type} (a : α) (f : α → β) :
    (f <$> (Except.ok a : Except PyErr α)) = .ok (f a) := rfl

@[simp] theorem except_pure {α : Type} (a : α) :
    (pure a : Except PyErr α) = .ok a := rfl

theorem hasKey_iff {j : Json} {k : String} :
    hasKey j k = true ↔ ∃ v, getKey? j k = some v := by
  simp [hasKey, Option.isSome_iff_exists]

theorem lookupD_of_some {j : Json} {k : String} {v d : Json}
    (h : getKey? j k = some v) : lookupD j k d = v := by
  simp [lookupD, h]

theorem lookupD_of_none {j : Json} {k : String} {d : Json}
    (h : getKey? j k = none) : lookupD j k d = d := by
  simp [lookupD, h]

theorem getItem_eq_ok {j : Json} {k : String} {v : Json}
    (h : getKey? j k = some v) : getItem j k = .ok v := by
  cases j with
  | obj l => simp [getItem, h]
  | str s => simp [getKey?] at h
  | num n => simp [getKey?] at h
  | bool b => simp [getKey?] at h
  | null => simp [getKey?] at h
  | arr a => simp [getKey?] at h

theorem getItem_eq_keyError {j : Json} {k : String}
    (hobj : isObj j = true) (h : getKey? j k = none) :
    getItem j k = .error (.keyError k) := by
  cases j <;> simp_all [getItem, isObj]

theorem getItem_eq_lookupD {j : Json} {k : String}
    (h : hasKey j k = true) : getItem j k = .ok (lookupD j k .null) := by
  rcases hasKey_iff.mp h with ⟨v, hv⟩
  rw [getItem_eq_ok hv, lookupD_of_some hv]

theorem dictGet_eq {j : Json} (hobj : isObj j = true) (k : String) :
    dictGet j k = .ok (lookupD j k .null) := by
  cases j <;> simp_all [isObj, dictGet]

theorem dictGetD_eq {j : Json} (hobj : isObj j = true) (k : String) (d : Json) :
    dictGetD j k d = .ok (lookupD j k d) := by
  cases j <;> simp_all [isObj, dictGetD]

theorem truthy_lookupD_hasKey {j : Json} {k : String}
    (h : truthy (lookupD j k .null) = true) : hasKey j k = true := by
  cases hk : getKey? j k with
  | none => rw [lookupD_of_none hk] at h; simp [truthy] at h
  | some v => simp [hasKey, hk]

namespace JSONResumeConverter

theorem listCompr_eq_map {f : Json → Except PyErr Json} {g : Json → Json} :
    ∀ (l : List Json), (∀ x ∈ l, f x = .ok (g x)) →
      listCompr f l = .ok (l.map g) := by
  intro l
  induction l with
  | nil => intro _; rfl
  | cons x xs ih =>
    intro h
    have hx := h x (List.mem_cons_self x xs)
    have hxs := ih (fun y hy => h y (List.mem_cons_of_mem _ hy))
    simp [listCompr, hx, hxs]

theorem format_location_eq {loc : Json} (h : wfLocation loc = true) :
    format_location loc = .ok (format_location_val loc) := by
  cases loc with
  | null => rfl
  | obj l =>
    simp only [wfLocation, Bool.and_eq_true] at h
    obtain ⟨h1, h2⟩ := h
    have ht : truthy (Json.obj l) = true := by
      rcases hasKey_iff.mp h1 with ⟨v, hv⟩
      cases l with
      | nil => simp [getKey?] at hv
      | cons p rest => simp [truthy]
    simp [format_location, format_location_val, ht,
      getItem_eq_lookupD h1, getItem_eq_lookupD h2]
  | str s => simp [wfLocation] at h
  | num n => simp [wfLocation] at h
  | bool b => simp [wfLocation] at h
  | arr l => simp [wfLocation] at h

theorem formatProfile_eq {p : Json} (h : wfProfile p = true) :
    formatProfile p = .ok (socialVal p) := by
  simp only [wfProfile, Bool.and_eq_true] at h
  obtain ⟨hobj, hnet⟩ := h
  rw [formatProfile]
  rw [dictGetD_eq hobj]
  cases hk : getKey? p "network" with
  | none =>
    rw [lookupD_of_none hk]
    simp [socialVal, networkNameOf, lookupD_of_none hk, dictGetD_eq hobj]
  | some v =>
    rw [hk] at hnet
    cases v <;> simp [optIs, isStrB] at hnet
    rw [lookupD_of_some hk]
    simp [socialVal, networkNameOf, lookupD_of_some hk, dictGetD_eq hobj]

theorem format_social_networks_eq {profiles : List Json}
    (h : ∀ x ∈ profiles, wfProfile x = true) :
    format_social_networks (.arr profiles) = .ok (socialListVal (.arr profiles)) := by
  rw [format_social_networks,
    listCompr_eq_map profiles (fun x hx => formatProfile_eq (h x hx))]
  rfl

theorem eduItem_eq {e : Json} (h : wfEdu e = true) :
    eduItem e = .ok (eduItemVal e) := by
  simp only [wfEdu, reqKeys, List.all_cons, List.all_nil, Bool.and_eq_true,
    and_true] at h
  obtain ⟨hobj, h1, h2, h3, h4⟩ := h
  simp [eduItem, eduItemVal, getItem_eq_lookupD h1, getItem_eq_lookupD h2,
    getItem_eq_lookupD h3, getItem_eq_lookupD h4, dictGetD_eq hobj]

theorem workItem_eq {e : Json} (h : wfWork e = true) :
    workItem e = .ok (workItemVal e) := by
  simp only [wfWork, reqKeys, List.all_cons, List.all_nil, Bool.and_eq_true,
    and_true] at h
  obtain ⟨hobj, h1, h2, h3⟩ := h
  simp [workItem, workItemVal, getItem_eq_lookupD h1, getItem_eq_lookupD h2,
    getItem_eq_lookupD h3, dictGetD_eq hobj]

theorem pubItem_eq {e : Json} (h : wfPub e = true) :
    pubItem e = .ok (pubItemVal e) := by
  simp only [wfPub, reqKeys, List.all_cons, List.all_nil, Bool.and_eq_true,
    and_true] at h
  obtain ⟨hobj, h1, h2⟩ := h
  simp [pubItem, pubItemVal, getItem_eq_lookupD h1, getItem_eq_lookupD h2,
    dictGetD_eq hobj, dictGet_eq hobj]

theorem projItem_eq {e : Json} (h : wfProj e = true) :
    projItem e = .ok (projItemVal e) := by
  simp only [wfProj, reqKeys, List.all_cons, List.all_nil, Bool.and_eq_true,
    and_true] at h
  obtain ⟨hobj, h1⟩ := h
  simp [projItem, projItemVal, getItem_eq_lookupD h1, dictGetD_eq hobj]

theorem strList_eq : ∀ {l : List Json}, (∀ x ∈ l, isStrB x = true) →
    strList l = .ok (strListVal l) := by
  intro l
  induction l with
  | nil => intro _; rfl
  | cons x xs ih =>
    intro h
    have hx := h x (List.mem_cons_self x xs)
    have hxs := ih (fun y hy => h y (List.mem_cons_of_mem _ hy))
    cases x <;> simp [isStrB] at hx
    simp [strList, strListVal, hxs]

theorem skillItem_eq {e : Json} (h : wfSkill e = true) :
    skillItem e = .ok (skillItemVal e) := by
  simp only [wfSkill, reqKeys, List.all_cons, List.all_nil, Bool.and_eq_true,
    and_true] at h
  obtain ⟨⟨⟨hobj, h1⟩, hkw⟩, hkwp⟩ := h
  rcases hasKey_iff.mp hkwp with ⟨v, hv⟩
  rw [hv] at hkw
  cases v <;> simp [optIs, isStrArr] at hkw
  simp [skillItem, skillItemVal, getItem_eq_lookupD h1, getItem_eq_ok hv,
    pyJoin, strList_eq hkw, keywordsOf, hv]

theorem awardItem_eq {e : Json} (h : wfAward e = true) :
    awardItem e = .ok (awardItemVal e) := by
  simp only [wfAward, reqKeys, List.all_cons, List.all_nil, Bool.and_eq_true,
    and_true] at h
  obtain ⟨hobj, h1, h2⟩ := h
  simp [awardItem, awardItemVal, getItem_eq_lookupD h1, getItem_eq_lookupD h2]

theorem buildListSection_eq {r : Json} (hobj : isObj r = true)
    {P : Json → Bool} {mk : Json → Except PyErr Json} {g : Json → Json}
    {inKey : String} (outKey : String)
    (hwf : wfOptList P (getKey? r inKey) = true)
    (hmk : ∀ x, P x = true → mk x = .ok (g x)) (acc : List (String × Json)) :
    buildListSection r inKey outKey mk acc =
      .ok (acc ++ sectionVal r inKey outKey g) := by
  rw [buildListSection, dictGet_eq hobj]
  cases hk : getKey? r inKey with
  | none =>
    rw [lookupD_of_none hk]
    simp [truthy, sectionVal, hk]
  | some v =>
    rw [hk] at hwf
    rw [lookupD_of_some hk]
    cases v <;> simp [wfOptList] at hwf
    case arr l =>
    cases hl : l.isEmpty with
    | true =>
      have hemp : l = [] := List.isEmpty_iff.mp hl
      subst hemp
      simp [truthy, sectionVal, hk]
    | false =>
      have ht : truthy (Json.arr l) = true := by simp [truthy, hl]
      rw [except_bind_ok, if_pos ht]
      simp [listCompr_eq_map l (fun x hx => hmk x (hwf x hx)), sectionVal, hk, hl]

theorem summarySection_eq {b : Json} (hbobj : isObj b = true) :
    summarySection b = .ok (summaryVal b) := by
  rw [summarySection, dictGet_eq hbobj]
  cases ht : truthy (lookupD b "summary" Json.null) with
  | false => simp [ht, summaryVal]
  | true =>
    have hk := truthy_lookupD_hasKey ht
    simp [ht, summaryVal, getItem_eq_lookupD hk]

theorem build_sections_eq {r : Json} (hwf : wfResume r = true)
    (hreq : reqFields r = true) : build_sections r = .ok (sectionsVal r) := by
  simp only [wfResume, Bool.and_eq_true] at hwf
  obtain ⟨⟨⟨⟨⟨⟨⟨hobj, hbas⟩, hedu⟩, hwork⟩, hpub⟩, hproj⟩, hskill⟩, haward⟩ := hwf
  rw [reqFields] at hreq
  cases hb : getKey? r "basics" with
  | none => rw [hb] at hreq; exact absurd hreq (by simp)
  | some b =>
  rw [hb] at hbas
  simp only [optIs, wfBasics, Bool.and_eq_true] at hbas
  obtain ⟨⟨⟨hbobj, _hloc⟩, _hsum⟩, _hprof⟩ := hbas
  rw [build_sections, getItem_eq_ok hb, except_bind_ok,
    summarySection_eq hbobj, except_bind_ok]
  rw [buildListSection_eq hobj "education" hedu (fun x hx => eduItem_eq hx) _,
    except_bind_ok]
  rw [buildListSection_eq hobj "experience" hwork (fun x hx => workItem_eq hx) _,
    except_bind_ok]
  rw [buildListSection_eq hobj "publications" hpub (fun x hx => pubItem_eq hx) _,
    except_bind_ok]
  rw [buildListSection_eq hobj "projects" hproj (fun x hx => projItem_eq hx) _,
    except_bind_ok]
  rw [buildListSection_eq hobj "technologies" hskill (fun x hx => skillItem_eq hx) _,
    except_bind_ok]
  rw [buildListSection_eq hobj "awards" haward (fun x hx => awardItem_eq hx) _,
    except_bind_ok]
  rw [sectionsVal, lookupD_of_some hb]
  simp [List.append_assoc]

theorem init_eq {r : Json} (hwf : wfResume r = true)
    (hreq : reqFields r = true) : init r = .ok (initVal r) := by
  have hws := build_sections_eq hwf hreq
  simp only [wfResume, Bool.and_eq_true] at hwf
  obtain ⟨⟨⟨⟨⟨⟨⟨hobj, hbas⟩, _⟩, _⟩, _⟩, _⟩, _⟩, _⟩ := hwf
  rw [reqFields] at hreq
  cases hb : getKey? r "basics" with
  | none => rw [hb] at hreq; exact absurd hreq (by simp)
  | some b =>
  rw [hb] at hreq hbas
  simp only [Bool.and_eq_true] at hreq
  obtain ⟨⟨hname, hemail⟩, hphone⟩ := hreq
  simp only [optIs, wfBasics, Bool.and_eq_true] at hbas
  obtain ⟨⟨⟨hbobj, hloc⟩, _hsum⟩, hprof⟩ := hbas
  rw [init, getItem_eq_ok hb, except_bind_ok]
  rw [getItem_eq_lookupD hname, except_bind_ok]
  rw [dictGet_eq hbobj, except_bind_ok]
  rw [format_location_eq hloc, except_bind_ok]
  rw [getItem_eq_lookupD hemail, except_bind_ok]
  rw [getItem_eq_lookupD hphone, except_bind_ok]
  rw [dictGetD_eq hbobj "url" (.str ""), except_bind_ok]
  rw [dictGetD_eq hbobj "profiles" (.arr []), except_bind_ok]
  have hsoc : format_social_networks (lookupD b "profiles" (Json.arr [])) =
      .ok (socialListVal (lookupD b "profiles" (Json.arr []))) := by
    cases hp : getKey? b "profiles" with
    | none =>
      rw [lookupD_of_none hp]
      exact format_social_networks_eq (by simp)
    | some v =>
      rw [hp] at hprof
      cases v <;> simp [wfOptList] at hprof
      case arr l =>
      rw [lookupD_of_some hp]
      exact format_social_networks_eq hprof
  rw [hsoc, except_bind_ok, hws, except_bind_ok]
  rw [initVal, lookupD_of_some hb]
  rfl

end JSONResumeConverter

open JSONResumeConverter

theorem getKey?_eq_none_of_hasKey_false {j : Json} {k : String}
    (h : hasKey j k = false) : getKey? j k = none := by
  cases hk : getKey? j k with
  | none => rfl
  | some v => rw [hasKey, hk] at h; simp at h

/-- For a well-formed résumé violating the required-field precondition, the
converter raises `KeyError` on one of the four required names. -/
theorem init_missing_field {r : Json} (hwf : wfResume r = true)
    (hreq : reqFields r = false) :
    ∃ k, k ∈ ["basics", "name", "email", "phone"] ∧
      init r = .error (.keyError k) := by
  simp only [wfResume, Bool.and_eq_true] at hwf
  obtain ⟨⟨⟨⟨⟨⟨⟨hobj, hbas⟩, _⟩, _⟩, _⟩, _⟩, _⟩, _⟩ := hwf
  rw [reqFields] at hreq
  cases hb : getKey? r "basics" with
  | none =>
    exact ⟨"basics", by simp, by
      rw [init, getItem_eq_keyError hobj hb, except_bind_error]⟩
  | some b =>
    rw [hb] at hreq hbas
    have hreq' : (hasKey b "name" && hasKey b "email" && hasKey b "phone") = false := hreq
    simp only [optIs, wfBasics, Bool.and_eq_true] at hbas
    obtain ⟨⟨⟨hbobj, hloc⟩, _⟩, _⟩ := hbas
    cases hname : hasKey b "name" with
    | false =>
      exact ⟨"name", by simp, by
        rw [init, getItem_eq_ok hb, except_bind_ok,
          getItem_eq_keyError hbobj (getKey?_eq_none_of_hasKey_false hname),
          except_bind_error]⟩
    | true =>
      cases hemail : hasKey b "email" with
      | false =>
        exact ⟨"email", by simp, by
          rw [init, getItem_eq_ok hb, except_bind_ok,
            getItem_eq_lookupD hname, except_bind_ok,
            dictGet_eq hbobj, except_bind_ok,
            format_location_eq hloc, except_bind_ok,
            getItem_eq_keyError hbobj (getKey?_eq_none_of_hasKey_false hemail),
            except_bind_error]⟩
      | true =>
        have hphone : hasKey b "phone" = false := by
          cases hp : hasKey b "phone" with
          | false => rfl
          | true => rw [hname, hemail, hp] at hreq'; simp at hreq'
        exact ⟨"phone", by simp, by
          rw [init, getItem_eq_ok hb, except_bind_ok,
            getItem_eq_lookupD hname, except_bind_ok,
            dictGet_eq hbobj, except_bind_ok,
            format_location_eq hloc, except_bind_ok,
            getItem_eq_lookupD hemail, except_bind_ok,
            getItem_eq_keyError hbobj (getKey?_eq_none_of_hasKey_false hphone),
            except_bind_error]⟩

/-- C1: over all otherwise well-formed résumés (any combination of optional
fields present or absent), the Converter — construction plus `convert` —
succeeds whenever `basics`, `basics.name`, `basics.email`, `basics.phone`
are all present, and fails with a `KeyError` (the `MissingRequiredField`
error) on one of those four names whenever `basics` or one of the three
required basics fields is absent. -/
theorem claim_C1_convert_totality (r : Json) (hwf : wfResume r = true) :
    (reqFields r = true → ∃ s, convert r = .ok s) ∧
    (reqFields r = false → ∃ k, k ∈ ["basics", "name", "email", "phone"] ∧
      convert r = .error (.keyError k)) := by
  constructor
  · intro hreq
    exact ⟨yaml_dump (initVal r), by rw [convert, init_eq hwf hreq]; rfl⟩
  · intro hreq
    rcases init_missing_field hwf hreq with ⟨k, hk, he⟩
    exact ⟨k, hk, by rw [convert, he]; rfl⟩

/-- C1 witness: both halves of the claim instantiated at concrete résumés —
a full well-formed one (conversion succeeds) and one whose `basics.phone`
is missing (conversion fails with a `KeyError`). -/
theorem claim_C1_convert_totality_witness :
    (wfResume rW = true ∧ reqFields rW = true ∧ ∃ s, convert rW = .ok s) ∧
    (wfResume rNoPhone = true ∧ reqFields rNoPhone = false ∧
      ∃ k, k ∈ ["basics", "name", "email", "phone"] ∧
        convert rNoPhone = .error (.keyError k)) :=
  ⟨⟨rfl, rfl, (claim_C1_convert_totality rW rfl).1 rfl⟩,
   ⟨rfl, rfl, (claim_C1_convert_totality rNoPhone rfl).2 rfl⟩⟩

/-! ## Looking up section keys in the converted output -/

theorem getKey?_obj_cons_self {k : String} {v : Json} {rest : List (String × Json)} :
    getKey? (.obj ((k, v) :: rest)) k = some v := by
  simp [getKey?]

theorem getKey?_obj_append_skip {l1 l2 : List (String × Json)} {k : String}
    (h : ∀ p ∈ l1, ¬(p.1 = k)) :
    getKey? (.obj (l1 ++ l2)) k = getKey? (.obj l2) k := by
  have hfind : List.find? (fun p => p.1 == k) l1 = none := by
    rw [List.find?_eq_none]
    intro p hp
    simp [h p hp]
  simp [getKey?, List.find?_append, hfind]

theorem summaryVal_keys {b : Json} : ∀ p ∈ summaryVal b, p.1 = "summary" := by
  intro p hp
  unfold summaryVal at hp
  split at hp
  · rw [List.mem_singleton.mp hp]
  · simp at hp

theorem sectionVal_keys {r : Json} {ik outk : String} {g : Json → Json} :
    ∀ p ∈ sectionVal r ik outk g, p.1 = outk := by
  intro p hp
  unfold sectionVal at hp
  split at hp
  · split at hp
    · simp at hp
    · rw [List.mem_singleton.mp hp]
  · simp at hp

theorem sectionsOf_eq {r : Json} (hwf : wfResume r = true)
    (hreq : reqFields r = true) : sectionsOf r = sectionsVal r := by
  rw [sectionsOf, cvOf, init_eq hwf hreq]
  rfl

theorem sectionsVal_lookup_experience {r : Json} {l : List Json}
    (h : getKey? r "work" = some (.arr l)) (hne : l.isEmpty = false) :
    getKey? (sectionsVal r) "experience" = some (.arr (l.map workItemVal)) := by
  rw [sectionsVal]
  simp only [List.append_assoc]
  rw [getKey?_obj_append_skip (fun p hp => by rw [summaryVal_keys p hp]; decide),
    getKey?_obj_append_skip (fun p hp => by rw [sectionVal_keys p hp]; decide)]
  rw [show sectionVal r "work" "experience" workItemVal =
      [("experience", Json.arr (l.map workItemVal))] by simp [sectionVal, h, hne]]
  exact getKey?_obj_cons_self

/-- C10: for every well-formed résumé satisfying the required-field
precondition, the converted `cv.website` equals `basics.url` when that key
is present and the empty string when it is absent. -/
theorem claim_C10_website_mapping (r : Json) (hwf : wfResume r = true)
    (hreq : reqFields r = true) :
    exceptOk (init r) = true ∧
    (∀ u, getKey? (lookupD r "basics" .null) "url" = some u →
      getKey? (cvOf r) "website" = some u) ∧
    (getKey? (lookupD r "basics" .null) "url" = none →
      getKey? (cvOf r) "website" = some (.str "")) := by
  have hcv : cvOf r = Json.obj [
      ("name", lookupD (lookupD r "basics" .null) "name" .null),
      ("location", .str (format_location_val (lookupD (lookupD r "basics" .null) "location" .null))),
      ("email", lookupD (lookupD r "basics" .null) "email" .null),
      ("phone", lookupD (lookupD r "basics" .null) "phone" .null),
      ("website", lookupD (lookupD r "basics" .null) "url" (.str "")),
      ("social_networks", socialListVal (lookupD (lookupD r "basics" .null) "profiles" (.arr []))),
      ("sections", sectionsVal r)] := by
    rw [cvOf, init_eq hwf hreq]
    rfl
  refine ⟨by rw [init_eq hwf hreq]; rfl, ?_, ?_⟩
  · intro u hu
    rw [hcv]
    have : lookupD (lookupD r "basics" Json.null) "url" (.str "") = u := lookupD_of_some hu
    rw [show getKey? (Json.obj [
      ("name", lookupD (lookupD r "basics" .null) "name" .null),
      ("location", .str (format_location_val (lookupD (lookupD r "basics" .null) "location" .null))),
      ("email", lookupD (lookupD r "basics" .null) "email" .null),
      ("phone", lookupD (lookupD r "basics" .null) "phone" .null),
      ("website", lookupD (lookupD r "basics" .null) "url" (.str "")),
      ("social_networks", socialListVal (lookupD (lookupD r "basics" .null) "profiles" (.arr []))),
      ("sections", sectionsVal r)]) "website" =
        some (lookupD (lookupD r "basics" .null) "url" (.str "")) from rfl, this]
  · intro hu
    rw [hcv]
    have : lookupD (lookupD r "basics" Json.null) "url" (.str "") = .str "" :=
      lookupD_of_none hu
    rw [show getKey? (Json.obj [
      ("name", lookupD (lookupD r "basics" .null) "name" .null),
      ("location", .str (format_location_val (lookupD (lookupD r "basics" .null) "location" .null))),
      ("email", lookupD (lookupD r "basics" .null) "email" .null),
      ("phone", lookupD (lookupD r "basics" .null) "phone" .null),
      ("website", lookupD (lookupD r "basics" .null) "url" (.str "")),
      ("social_networks", socialListVal (lookupD (lookupD r "basics" .null) "profiles" (.arr []))),
      ("sections", sectionsVal r)]) "website" =
        some (lookupD (lookupD r "basics" .null) "url" (.str "")) from rfl, this]

/-- C10 witness: on the concrete résumé `rW` (whose `basics.url` is
`https://jane.dev`) the converted website field carries that value; on
`rMin` (no `url`) it is the empty string. -/
theorem claim_C10_website_mapping_witness :
    wfResume rW = true ∧ reqFields rW = true ∧
    getKey? (cvOf rW) "website" = some (.str "https://jane.dev") ∧
    wfResume rMin = true ∧ reqFields rMin = true ∧
    getKey? (cvOf rMin) "website" = some (.str "") :=
  ⟨rfl, rfl, (claim_C10_website_mapping rW rfl rfl).2.1 (.str "https://jane.dev") rfl,
   rfl, rfl, (claim_C10_website_mapping rMin rfl rfl).2.2 rfl⟩

/-- C9: for every well-formed résumé satisfying the required-field
precondition whose `work` list has an entry without `endDate`, the
corresponding `experience` item of the conversion has
`end_date = "present"` (the list is mapped in input order, so entry `i`
corresponds to item `i`). -/
theorem claim_C9_end_date_default (r : Json) (hwf : wfResume r = true)
    (hreq : reqFields r = true) (l : List Json)
    (hwork : getKey? r "work" = some (.arr l)) (i : Nat) (hi : i < l.length)
    (hnoEnd : hasKey (l.get ⟨i, hi⟩) "endDate" = false) :
    exceptOk (init r) = true ∧
    ∃ items : List Json,
      getKey? (sectionsOf r) "experience" = some (.arr items) ∧
      items.length = l.length ∧
      ∀ hi2 : i < items.length,
        getKey? (items.get ⟨i, hi2⟩) "end_date" = some (.str "present") := by
  have hne : l.isEmpty = false := by
    cases l with
    | nil => exact absurd hi (by simp)
    | cons x xs => rfl
  refine ⟨by rw [init_eq hwf hreq]; rfl, l.map workItemVal, ?_, by simp, ?_⟩
  · rw [sectionsOf_eq hwf hreq]
    exact sectionsVal_lookup_experience hwork hne
  · intro hi2
    have hget : (l.map workItemVal).get ⟨i, hi2⟩ = workItemVal (l.get ⟨i, hi⟩) := by
      simp
    rw [hget]
    have hkey : getKey? (workItemVal (l.get ⟨i, hi⟩)) "end_date" =
        some (lookupD (l.get ⟨i, hi⟩) "endDate" (.str "present")) := rfl
    rw [hkey, lookupD_of_none (getKey?_eq_none_of_hasKey_false hnoEnd)]

/-- C9 witness: `rW` has exactly one `work` entry and it lacks `endDate`;
the converted `experience[0].end_date` is the literal `"present"`. -/
theorem claim_C9_end_date_default_witness :
    wfResume rW = true ∧ reqFields rW = true ∧
    getKey? rW "work" = some (.arr [.obj [("name", .str "ACME"),
      ("position", .str "Dev"), ("startDate", .str "2020-01")]]) ∧
    ∃ items : List Json,
      getKey? (sectionsOf rW) "experience" = some (.arr items) ∧
      items.length = 1 ∧
      ∀ hi2 : 0 < items.length,
        getKey? (items.get ⟨0, hi2⟩) "end_date" = some (.str "present") :=
  ⟨rfl, rfl, rfl, by
    rcases claim_C9_end_date_default rW rfl rfl
      [.obj [("name", .str "ACME"), ("position", .str "Dev"),
        ("startDate", .str "2020-01")]] rfl 0 (by decide) rfl with ⟨-, items, h1, h2, h3⟩
    exact ⟨items, h1, h2, h3⟩⟩

/-- The source's `networks` dict lookup (lower-cased name, default
`networks["default"]`) agrees with the spec's two-entry table with default
`GitHub`. -/
theorem networks_lookup_eq_spec (s : String) :
    ((networks.find? (fun q => q.1 == s)).map Prod.snd).getD networksDefault
      = specNetMap s := by
  by_cases h1 : s = "github"
  · subst h1; rfl
  by_cases h2 : s = "linkedin"
  · subst h2; rfl
  by_cases h3 : s = "default"
  · subst h3; rfl
  rw [networks,
    List.find?_cons_of_neg _ (by simp; exact fun e => h1 e.symm),
    List.find?_cons_of_neg _ (by simp; exact fun e => h2 e.symm),
    List.find?_cons_of_neg _ (by simp; exact fun e => h3 e.symm),
    List.find?_nil]
  simp [specNetMap, networksDefault, h1, h2]

/-- C8: the Converter maps each profile, in input order, to an entry whose
`network` is the lower-cased input name looked up in the fixed table
(`github → GitHub`, `linkedin → LinkedIn`, anything else — including a
missing name — `GitHub`) and whose `username` is the input username or
`""` when absent. -/
theorem claim_C8_profile_mapping (profiles : List Json)
    (h : ∀ p ∈ profiles, wfProfile p = true) :
    format_social_networks (.arr profiles) = .ok (.arr (profiles.map socialVal)) ∧
    ∀ p ∈ profiles, socialVal p = .obj [
      ("network", .str (specNetMap (pyLower (networkNameOf p)))),
      ("username", lookupD p "username" (.str ""))] := by
  constructor
  · rw [format_social_networks_eq h]; rfl
  · intro p _
    rw [socialVal, networks_lookup_eq_spec]

/-! ## Keys of the sections mapping -/

theorem summaryVal_map_fst (b : Json) :
    (summaryVal b).map Prod.fst = summaryKeyVal b := by
  unfold summaryVal summaryKeyVal
  split <;> rfl

theorem sectionVal_map_fst (r : Json) (ik outk : String) (g : Json → Json) :
    (sectionVal r ik outk g).map Prod.fst = sectionKeyVal r ik outk := by
  cases hk : getKey? r ik with
  | none => simp [sectionVal, sectionKeyVal, hk]
  | some v =>
    cases v with
    | arr l =>
      simp only [sectionVal, sectionKeyVal, hk]
      split <;> rfl
    | str s => simp [sectionVal, sectionKeyVal, hk]
    | num n => simp [sectionVal, sectionKeyVal, hk]
    | bool b => simp [sectionVal, sectionKeyVal, hk]
    | null => simp [sectionVal, sectionKeyVal, hk]
    | obj o => simp [sectionVal, sectionKeyVal, hk]

theorem sectionsVal_objKeys (r : Json) :
    objKeys (sectionsVal r) =
      summaryKeyVal (lookupD r "basics" .null)
      ++ sectionKeyVal r "education" "education"
      ++ sectionKeyVal r "work" "experience"
      ++ sectionKeyVal r "publications" "publications"
      ++ sectionKeyVal r "projects" "projects"
      ++ sectionKeyVal r "skills" "technologies"
      ++ sectionKeyVal r "awards" "awards" := by
  rw [sectionsVal, objKeys]
  simp only [List.map_append, summaryVal_map_fst, sectionVal_map_fst]

theorem mem_summaryKeyVal {b : Json} {k : String} :
    k ∈ summaryKeyVal b ↔
      (k = "summary" ∧ truthy (lookupD b "summary" .null) = true) := by
  unfold summaryKeyVal
  cases ht : truthy (lookupD b "summary" .null) <;> simp [ht]

theorem mem_sectionKeyVal {r : Json} {ik outk k : String} :
    k ∈ sectionKeyVal r ik outk ↔
      (k = outk ∧ ∃ l, getKey? r ik = some (.arr l) ∧ l ≠ []) := by
  cases hk : getKey? r ik with
  | none => simp [sectionKeyVal, hk]
  | some v =>
    cases v with
    | arr l =>
      cases hl : l.isEmpty with
      | true =>
        have hemp : l = [] := List.isEmpty_iff.mp hl
        subst hemp
        simp [sectionKeyVal, hk]
      | false =>
        have hne : l ≠ [] := by intro hcon; subst hcon; simp at hl
        simp [sectionKeyVal, hk, hl, hne]
    | str s => simp [sectionKeyVal, hk]
    | num n => simp [sectionKeyVal, hk]
    | bool b => simp [sectionKeyVal, hk]
    | null => simp [sectionKeyVal, hk]
    | obj o => simp [sectionKeyVal, hk]

theorem truthy_summary_iff {b : Json}
    (hsum : optIs isStrB (getKey? b "summary") = true) :
    truthy (lookupD b "summary" .null) = true ↔
      ∃ s, getKey? b "summary" = some (.str s) ∧ s ≠ "" := by
  cases hk : getKey? b "summary" with
  | none =>
    rw [lookupD_of_none hk]
    simp [truthy]
  | some v =>
    rw [hk] at hsum
    cases v with
    | str s =>
      rw [lookupD_of_some hk]
      simp [truthy]
    | num n => simp [optIs, isStrB] at hsum
    | bool c => simp [optIs, isStrB] at hsum
    | null => simp [optIs, isStrB] at hsum
    | arr l => simp [optIs, isStrB] at hsum
    | obj o => simp [optIs, isStrB] at hsum

theorem summaryKeyVal_sublist (b : Json) :
    (summaryKeyVal b).Sublist ["summary"] := by
  unfold summaryKeyVal
  split
  · exact List.Sublist.refl _
  · exact List.nil_sublist _

theorem sectionKeyVal_sublist (r : Json) (ik outk : String) :
    (sectionKeyVal r ik outk).Sublist [outk] := by
  unfold sectionKeyVal
  split
  · split
    · exact List.nil_sublist _
    · exact List.Sublist.refl _
  · exact List.nil_sublist _

theorem sectionsVal_keys_sublist (r : Json) :
    (objKeys (sectionsVal r)).Sublist sectionOrder := by
  rw [sectionsVal_objKeys]
  have h1 := summaryKeyVal_sublist (lookupD r "basics" .null)
  have h2 := sectionKeyVal_sublist r "education" "education"
  have h3 := sectionKeyVal_sublist r "work" "experience"
  have h4 := sectionKeyVal_sublist r "publications" "publications"
  have h5 := sectionKeyVal_sublist r "projects" "projects"
  have h6 := sectionKeyVal_sublist r "skills" "technologies"
  have h7 := sectionKeyVal_sublist r "awards" "awards"
  exact (((((h1.append h2).append h3).append h4).append h5).append h6).append h7

/-! ## Serialization emits mapping keys in insertion order -/

theorem map_fst_sublist_emitObj :
    ∀ (l : List (String × Json)), (l.map Prod.fst).Sublist (yamlEmitKeysObj l) := by
  intro l
  induction l with
  | nil => exact List.Sublist.refl _
  | cons p rest ih =>
    cases p with
    | mk k v =>
      rw [List.map_cons, yamlEmitKeysObj]
      exact List.Sublist.cons₂ k (ih.trans (List.sublist_append_right _ _))

theorem objKeys_sublist_emit (j : Json) :
    (objKeys j).Sublist (yamlEmitKeys j) := by
  cases j with
  | obj l => exact map_fst_sublist_emitObj l
  | arr l => exact List.nil_sublist _
  | str s => exact List.nil_sublist _
  | num n => exact List.nil_sublist _
  | bool b => exact List.nil_sublist _
  | null => exact List.nil_sublist _

theorem emitKeys_of_mem {k : String} {v : Json} :
    ∀ {l : List (String × Json)}, (k, v) ∈ l →
      (yamlEmitKeys v).Sublist (yamlEmitKeysObj l) := by
  intro l h
  induction l with
  | nil => cases h
  | cons p rest ih =>
    cases p with
    | mk k0 v0 =>
      rcases List.mem_cons.mp h with heq | hmem
      · cases heq
        exact (List.sublist_append_left _ _).cons _
      · exact ((ih hmem).trans (List.sublist_append_right _ _)).cons _

/-! ## Looking up each section value -/

theorem sectionsVal_lookup_education {r : Json} {l : List Json}
    (h : getKey? r "education" = some (.arr l)) (hne : l.isEmpty = false) :
    getKey? (sectionsVal r) "education" = some (.arr (l.map eduItemVal)) := by
  rw [sectionsVal]
  simp only [List.append_assoc]
  rw [getKey?_obj_append_skip (fun p hp => by rw [summaryVal_keys p hp]; decide)]
  rw [show sectionVal r "education" "education" eduItemVal =
      [("education", Json.arr (l.map eduItemVal))] by simp [sectionVal, h, hne]]
  exact getKey?_obj_cons_self

theorem sectionsVal_lookup_publications {r : Json} {l : List Json}
    (h : getKey? r "publications" = some (.arr l)) (hne : l.isEmpty = false) :
    getKey? (sectionsVal r) "publications" = some (.arr (l.map pubItemVal)) := by
  rw [sectionsVal]
  simp only [List.append_assoc]
  rw [getKey?_obj_append_skip (fun p hp => by rw [summaryVal_keys p hp]; decide),
    getKey?_obj_append_skip (fun p hp => by rw [sectionVal_keys p hp]; decide),
    getKey?_obj_append_skip (fun p hp => by rw [sectionVal_keys p hp]; decide)]
  rw [show sectionVal r "publications" "publications" pubItemVal =
      [("publications", Json.arr (l.map pubItemVal))] by simp [sectionVal, h, hne]]
  exact getKey?_obj_cons_self

theorem sectionsVal_lookup_projects {r : Json} {l : List Json}
    (h : getKey? r "projects" = some (.arr l)) (hne : l.isEmpty = false) :
    getKey? (sectionsVal r) "projects" = some (.arr (l.map projItemVal)) := by
  rw [sectionsVal]
  simp only [List.append_assoc]
  rw [getKey?_obj_append_skip (fun p hp => by rw [summaryVal_keys p hp]; decide),
    getKey?_obj_append_skip (fun p hp => by rw [sectionVal_keys p hp]; decide),
    getKey?_obj_append_skip (fun p hp => by rw [sectionVal_keys p hp]; decide),
    getKey?_obj_append_skip (fun p hp => by rw [sectionVal_keys p hp]; decide)]
  rw [show sectionVal r "projects" "projects" projItemVal =
      [("projects", Json.arr (l.map projItemVal))] by simp [sectionVal, h, hne]]
  exact getKey?_obj_cons_self

theorem sectionsVal_lookup_technologies {r : Json} {l : List Json}
    (h : getKey? r "skills" = some (.arr l)) (hne : l.isEmpty = false) :
    getKey? (sectionsVal r) "technologies" = some (.arr (l.map skillItemVal)) := by
  rw [sectionsVal]
  simp only [List.append_assoc]
  rw [getKey?_obj_append_skip (fun p hp => by rw [summaryVal_keys p hp]; decide),
    getKey?_obj_append_skip (fun p hp => by rw [sectionVal_keys p hp]; decide),
    getKey?_obj_append_skip (fun p hp => by rw [sectionVal_keys p hp]; decide),
    getKey?_obj_append_skip (fun p hp => by rw [sectionVal_keys p hp]; decide),
    getKey?_obj_append_skip (fun p hp => by rw [sectionVal_keys p hp]; decide)]
  rw [show sectionVal r "skills" "technologies" skillItemVal =
      [("technologies", Json.arr (l.map skillItemVal))] by simp [sectionVal, h, hne]]
  exact getKey?_obj_cons_self

theorem sectionsVal_lookup_awards {r : Json} {l : List Json}
    (h : getKey? r "awards" = some (.arr l)) (hne : l.isEmpty = false) :
    getKey? (sectionsVal r) "awards" = some (.arr (l.map awardItemVal)) := by
  rw [sectionsVal]
  simp only [List.append_assoc]
  rw [getKey?_obj_append_skip (fun p hp => by rw [summaryVal_keys p hp]; decide),
    getKey?_obj_append_skip (fun p hp => by rw [sectionVal_keys p hp]; decide),
    getKey?_obj_append_skip (fun p hp => by rw [sectionVal_keys p hp]; decide),
    getKey?_obj_append_skip (fun p hp => by rw [sectionVal_keys p hp]; decide),
    getKey?_obj_append_skip (fun p hp => by rw [sectionVal_keys p hp]; decide),
    getKey?_obj_append_skip (fun p hp => by rw [sectionVal_keys p hp]; decide)]
  rw [show sectionVal r "awards" "awards" awardItemVal =
      [("awards", Json.arr (l.map awardItemVal))] by simp [sectionVal, h, hne]]
  exact getKey?_obj_cons_self

/-- C8 witness: the spec's two example profiles — `LinkedIn` is kept,
unknown `twitter` defaults to `GitHub`, usernames pass through. -/
theorem claim_C8_profile_mapping_witness :
    (∀ p ∈ profsW, wfProfile p = true) ∧
    format_social_networks (.arr profsW) = .ok (.arr [
      .obj [("network", .str "LinkedIn"), ("username", .str "jdoe")],
      .obj [("network", .str "GitHub"), ("username", .str "x")]]) :=
  ⟨fun p hp => by
      simp only [profsW, List.mem_cons, List.not_mem_nil, or_false] at hp
      rcases hp with rfl | rfl <;> rfl,
   by
    rw [(claim_C8_profile_mapping profsW (fun p hp => by
      simp only [profsW, List.mem_cons, List.not_mem_nil, or_false] at hp
      rcases hp with rfl | rfl <;> rfl)).1]
    rfl⟩

/-- C4 counterexample: on `rEmptySummary` the input field `basics.summary`
is present (the empty string), the conversion succeeds, and yet the output
`sections` mapping has no `summary` key — so "key present iff input field
present (non-emptiness required only for list-valued sections)" is false as
stated. -/
theorem claim_C4_presence_counterexample :
    exceptOk (init rEmptySummary) = true ∧
    getKey? (lookupD rEmptySummary "basics" .null) "summary" = some (.str "") ∧
    getKey? (sectionsOf rEmptySummary) "summary" = none :=
  ⟨rfl, rfl, rfl⟩

/-- C4 (amended): for every well-formed résumé satisfying the
required-field precondition, a section key is present in the output's
`sections` mapping iff the corresponding input field is present and
non-empty — a non-empty list for the six list-valued sections, and a
non-empty string for `summary` (presence alone does not suffice for
`summary`); in particular an explicitly empty input list yields no key. -/
theorem claim_C4_presence_amended (r : Json) (hwf : wfResume r = true)
    (hreq : reqFields r = true) :
    exceptOk (init r) = true ∧
    (("summary" ∈ objKeys (sectionsOf r)) ↔
      ∃ s, getKey? (lookupD r "basics" .null) "summary" = some (.str s) ∧ s ≠ "") ∧
    (("education" ∈ objKeys (sectionsOf r)) ↔
      ∃ l, getKey? r "education" = some (.arr l) ∧ l ≠ []) ∧
    (("experience" ∈ objKeys (sectionsOf r)) ↔
      ∃ l, getKey? r "work" = some (.arr l) ∧ l ≠ []) ∧
    (("publications" ∈ objKeys (sectionsOf r)) ↔
      ∃ l, getKey? r "publications" = some (.arr l) ∧ l ≠ []) ∧
    (("projects" ∈ objKeys (sectionsOf r)) ↔
      ∃ l, getKey? r "projects" = some (.arr l) ∧ l ≠ []) ∧
    (("technologies" ∈ objKeys (sectionsOf r)) ↔
      ∃ l, getKey? r "skills" = some (.arr l) ∧ l ≠ []) ∧
    (("awards" ∈ objKeys (sectionsOf r)) ↔
      ∃ l, getKey? r "awards" = some (.arr l) ∧ l ≠ []) := by
  have hcv : exceptOk (init r) = true := by rw [init_eq hwf hreq]; rfl
  have hso := sectionsOf_eq hwf hreq
  have hwf' := hwf
  simp only [wfResume, Bool.and_eq_true] at hwf'
  obtain ⟨⟨⟨⟨⟨⟨⟨hobj, hbas⟩, _⟩, _⟩, _⟩, _⟩, _⟩, _⟩ := hwf'
  rw [reqFields] at hreq
  cases hb : getKey? r "basics" with
  | none => rw [hb] at hreq; exact absurd hreq (by simp)
  | some b =>
  rw [hb] at hbas
  simp only [optIs, wfBasics, Bool.and_eq_true] at hbas
  obtain ⟨⟨⟨hbobj, _⟩, hsum⟩, _⟩ := hbas
  have hbv : lookupD r "basics" Json.null = b := lookupD_of_some hb
  refine ⟨hcv, ?_, ?_, ?_, ?_, ?_, ?_, ?_⟩ <;>
    rw [hso, sectionsVal_objKeys, hbv] <;>
    simp [List.mem_append, mem_sectionKeyVal, mem_summaryKeyVal,
      truthy_summary_iff hsum]

/-- C4 witness: the amended law instantiated at `rW` — its empty `awards`
list yields no `awards` key while its non-empty `education` list yields an
`education` key. -/
theorem claim_C4_presence_amended_witness :
    wfResume rW = true ∧ reqFields rW = true ∧
    (("awards" ∈ objKeys (sectionsOf rW)) ↔
      ∃ l, getKey? rW "awards" = some (.arr l) ∧ l ≠ []) ∧
    "awards" ∉ objKeys (sectionsOf rW) ∧
    "education" ∈ objKeys (sectionsOf rW) :=
  ⟨rfl, rfl, (claim_C4_presence_amended rW rfl rfl).2.2.2.2.2.2.2,
   by decide, by decide⟩

/-- C7: for every well-formed résumé satisfying the required-field
precondition: each emitted list section is the input list mapped in input
order; the section keys appear in the output mapping in the fixed insertion
order `summary, education, experience, publications, projects,
technologies, awards` restricted to the keys present; and the
`sort_keys=False` serialization emits those keys in that same order (the
section keys form a subsequence of the whole document's key-emission
trace). -/
theorem claim_C7_section_order (r : Json) (hwf : wfResume r = true)
    (hreq : reqFields r = true) :
    exceptOk (init r) = true ∧
    (∀ l, getKey? r "education" = some (.arr l) → l.isEmpty = false →
      getKey? (sectionsOf r) "education" = some (.arr (l.map eduItemVal))) ∧
    (∀ l, getKey? r "work" = some (.arr l) → l.isEmpty = false →
      getKey? (sectionsOf r) "experience" = some (.arr (l.map workItemVal))) ∧
    (∀ l, getKey? r "publications" = some (.arr l) → l.isEmpty = false →
      getKey? (sectionsOf r) "publications" = some (.arr (l.map pubItemVal))) ∧
    (∀ l, getKey? r "projects" = some (.arr l) → l.isEmpty = false →
      getKey? (sectionsOf r) "projects" = some (.arr (l.map projItemVal))) ∧
    (∀ l, getKey? r "skills" = some (.arr l) → l.isEmpty = false →
      getKey? (sectionsOf r) "technologies" = some (.arr (l.map skillItemVal))) ∧
    (∀ l, getKey? r "awards" = some (.arr l) → l.isEmpty = false →
      getKey? (sectionsOf r) "awards" = some (.arr (l.map awardItemVal))) ∧
    (objKeys (sectionsOf r)).Sublist sectionOrder ∧
    (objKeys (sectionsOf r)).Sublist (yamlEmitKeys (okValue (init r))) := by
  have hso := sectionsOf_eq hwf hreq
  refine ⟨by rw [init_eq hwf hreq]; rfl,
    fun l h hne => by rw [hso]; exact sectionsVal_lookup_education h hne,
    fun l h hne => by rw [hso]; exact sectionsVal_lookup_experience h hne,
    fun l h hne => by rw [hso]; exact sectionsVal_lookup_publications h hne,
    fun l h hne => by rw [hso]; exact sectionsVal_lookup_projects h hne,
    fun l h hne => by rw [hso]; exact sectionsVal_lookup_technologies h hne,
    fun l h hne => by rw [hso]; exact sectionsVal_lookup_awards h hne,
    by rw [hso]; exact sectionsVal_keys_sublist r, ?_⟩
  rw [hso, init_eq hwf hreq]
  show (objKeys (sectionsVal r)).Sublist (yamlEmitKeys (initVal r))
  have h3 := objKeys_sublist_emit (sectionsVal r)
  have hmem : ("sections", sectionsVal r) ∈ [
      ("name", lookupD (lookupD r "basics" .null) "name" .null),
      ("location", Json.str (format_location_val (lookupD (lookupD r "basics" .null) "location" .null))),
      ("email", lookupD (lookupD r "basics" .null) "email" .null),
      ("phone", lookupD (lookupD r "basics" .null) "phone" .null),
      ("website", lookupD (lookupD r "basics" .null) "url" (.str "")),
      ("social_networks", socialListVal (lookupD (lookupD r "basics" .null) "profiles" (.arr []))),
      ("sections", sectionsVal r)] := by simp
  have h2 := emitKeys_of_mem hmem
  exact (((h3.trans h2).trans (List.sublist_append_left _ _)).cons _)

/-- C7 witness: at `rW` the section keys of the output are a subsequence of
the fixed order and of the serialization's key-emission trace, and the one
`work` entry appears as the one `experience` item. -/
theorem claim_C7_section_order_witness :
    wfResume rW = true ∧ reqFields rW = true ∧
    (objKeys (sectionsOf rW)).Sublist sectionOrder ∧
    (objKeys (sectionsOf rW)).Sublist (yamlEmitKeys (okValue (init rW))) ∧
    getKey? (sectionsOf rW) "experience" = some (.arr
      ([Json.obj [("name", .str "ACME"), ("position", .str "Dev"),
        ("startDate", .str "2020-01")]].map workItemVal)) := by
  obtain ⟨h0, he, hw, hp, hpr, hsk, haw, hs1, hs2⟩ :=
    claim_C7_section_order rW rfl rfl
  exact ⟨rfl, rfl, hs1, hs2, hw _ rfl rfl⟩

/-- C6: if the service call raises, or the returned text (stripped) fails
to parse as YAML, the enhancer returns the original content unchanged; the
embedding is a total function of its oracles (the function's outer
`except Exception` means it never raises), so it can never fail the
request. -/
theorem claim_C6_enhancer_fallback (generate_content : String → GeminiOutcome)
    (safe_load : String → Option Json) (yaml_content : String) :
    (generate_content (enhancement_prompt yaml_content) = .raise →
      enhance_resume_with_gemini generate_content safe_load yaml_content
        = yaml_content) ∧
    (∀ text, generate_content (enhancement_prompt yaml_content) = .ok text →
      safe_load (pyStrip text) = none →
      enhance_resume_with_gemini generate_content safe_load yaml_content
        = yaml_content) := by
  constructor
  · intro h
    rw [enhance_resume_with_gemini, h]
  · intro text h hp
    rw [enhance_resume_with_gemini, h]
    simp [hp]

/-- C6 witness: a raising service call and a service call whose reply does
not parse both leave the content untouched. -/
theorem claim_C6_enhancer_fallback_witness :
    enhance_resume_with_gemini (fun _ => .raise) (fun _ => none) "cv: yes"
      = "cv: yes" ∧
    enhance_resume_with_gemini (fun _ => .ok " : :") (fun _ => none) "cv: yes"
      = "cv: yes" :=
  ⟨(claim_C6_enhancer_fallback (fun _ => .raise) (fun _ => none) "cv: yes").1 rfl,
   (claim_C6_enhancer_fallback (fun _ => .ok " : :") (fun _ => none) "cv: yes").2
     " : :" rfl rfl⟩

/-! ## Association-list update lemmas -/

theorem getKey?_key_cons {k0 : String} {v0 : Json} {rest : List (String × Json)}
    {k : String} :
    getKey? (.obj ((k0, v0) :: rest)) k =
      if k0 = k then some v0 else getKey? (.obj rest) k := by
  by_cases h : k0 = k
  · subst h
    simp [getKey?, List.find?]
  · have hb : (k0 == k) = false := by simp [h]
    simp [getKey?, List.find?, hb, h]

theorem setKey_lookup_self : ∀ (l : List (String × Json)) (k : String) (v : Json),
    getKey? (.obj (setKey l k v)) k = some v := by
  intro l k v
  induction l with
  | nil => simp [setKey, getKey?_key_cons]
  | cons p rest ih =>
    cases p with
    | mk k0 v0 =>
      by_cases hk : k0 = k
      · subst hk
        simp [setKey, getKey?_key_cons]
      · rw [setKey, if_neg (by simp [hk])]
        rw [getKey?_key_cons, if_neg hk]
        exact ih

theorem setKey_lookup_other : ∀ (l : List (String × Json)) (k : String) (v : Json)
    (k2 : String), ¬(k2 = k) →
    getKey? (.obj (setKey l k v)) k2 = getKey? (.obj l) k2 := by
  intro l k v k2 hne
  induction l with
  | nil =>
    rw [setKey, getKey?_key_cons, if_neg (fun e => hne e.symm)]
  | cons p rest ih =>
    cases p with
    | mk k0 v0 =>
      by_cases hk : k0 = k
      · subst hk
        rw [setKey, if_pos (by simp)]
        rw [getKey?_key_cons, if_neg (fun e => hne e.symm)]
        rw [getKey?_key_cons, if_neg (fun e => hne e.symm)]
      · rw [setKey, if_neg (by simp [hk])]
        rw [getKey?_key_cons, getKey?_key_cons]
        by_cases hk2 : k0 = k2
        · rw [if_pos hk2, if_pos hk2]
        · rw [if_neg hk2, if_neg hk2]
          exact ih

/-! ## The bullet-normalization step -/

theorem replace_bullet_core_not_mapping {data : Json} {b : String}
    (h : designHighlightsIsMapping data = false) :
    replace_bullet_core data b = (false, data) := by
  unfold designHighlightsIsMapping at h
  cases data with
  | obj dl =>
    cases hd : getKey? (.obj dl) "design" with
    | none => simp [replace_bullet_core, hd]
    | some v =>
      simp only [hd] at h
      cases v with
      | obj designL =>
        cases hh : getKey? (.obj designL) "highlights" with
        | none => simp [replace_bullet_core, hd, hh]
        | some w =>
          simp only [hh] at h
          cases w with
          | obj hlL => simp at h
          | str s => simp [replace_bullet_core, hd, hh]
          | num n => simp [replace_bullet_core, hd, hh]
          | bool c => simp [replace_bullet_core, hd, hh]
          | null => simp [replace_bullet_core, hd, hh]
          | arr a => simp [replace_bullet_core, hd, hh]
      | str s => simp [replace_bullet_core, hd]
      | num n => simp [replace_bullet_core, hd]
      | bool c => simp [replace_bullet_core, hd]
      | null => simp [replace_bullet_core, hd]
      | arr a => simp [replace_bullet_core, hd]
  | str s => rfl
  | num n => rfl
  | bool c => rfl
  | null => rfl
  | arr a => rfl

theorem replace_bullet_core_mapping {dl designL hlL : List (String × Json)}
    {b : String}
    (hd : getKey? (.obj dl) "design" = some (.obj designL))
    (hh : getKey? (.obj designL) "highlights" = some (.obj hlL)) :
    replace_bullet_core (.obj dl) b =
      (true, .obj (setKey dl "design" (.obj (setKey designL "highlights"
        (.obj (setKey hlL "bullet" (.str b))))))) := by
  simp [replace_bullet_core, hd, hh]

/-- C5 counterexample: with a base template whose `design.highlights` path
exists but holds the scalar `"x"`, the merge-and-normalize step does not
rewrite any bullet: the assignment raises, is caught, and the merged
document is used with `design.highlights` still `"x"` — the claim's
"rewritten whenever the path `design.highlights` exists" is false. -/
theorem claim_C5_merge_normalize_counterexample :
    getKey? (lookupD baseScalarHighlights "design" .null) "highlights"
      = some (.str "x") ∧
    merge_and_normalize baseScalarHighlights newCvDoc = .ok (.obj [
      ("design", .obj [("highlights", .str "x")]),
      ("theme", .str "classic"),
      ("cv", .obj [("name", .str "X")])]) ∧
    getKey? (lookupD (okValue (merge_and_normalize baseScalarHighlights newCvDoc))
      "design" .null) "highlights" = some (.str "x") :=
  ⟨rfl, rfl, rfl⟩

/-- C5 (amended): the merge step replaces exactly the `cv` subtree of the
base (every other key reads unchanged); afterwards, when `design.highlights`
exists in the merged document AND is a mapping, the normalization rewrites
exactly `design.highlights.bullet` to `"•"` (all sibling keys at each level
unchanged); when `design` or `design.highlights` is absent, or
`design.highlights` is not a mapping, the normalization fails non-fatally
and the merged document is used unmodified. -/
theorem claim_C5_merge_normalize_amended (bl : List (String × Json))
    (new_cv_data cv : Json) (hcv : getKey? new_cv_data "cv" = some cv) :
    mergeCv (.obj bl) new_cv_data = .ok (.obj (setKey bl "cv" cv)) ∧
    getKey? (.obj (setKey bl "cv" cv)) "cv" = some cv ∧
    (∀ k, ¬(k = "cv") →
      getKey? (.obj (setKey bl "cv" cv)) k = getKey? (.obj bl) k) ∧
    (∀ designL hlL,
      getKey? (.obj (setKey bl "cv" cv)) "design" = some (.obj designL) →
      getKey? (.obj designL) "highlights" = some (.obj hlL) →
      ∃ merged2, merge_and_normalize (.obj bl) new_cv_data = .ok merged2 ∧
        getKey? (lookupD (lookupD merged2 "design" .null) "highlights" .null)
          "bullet" = some (.str "•") ∧
        (∀ k, ¬(k = "design") →
          getKey? merged2 k = getKey? (.obj (setKey bl "cv" cv)) k) ∧
        (∀ k, ¬(k = "highlights") →
          getKey? (lookupD merged2 "design" .null) k = getKey? (.obj designL) k) ∧
        (∀ k, ¬(k = "bullet") →
          getKey? (lookupD (lookupD merged2 "design" .null) "highlights" .null) k
            = getKey? (.obj hlL) k)) ∧
    (designHighlightsIsMapping (.obj (setKey bl "cv" cv)) = false →
      merge_and_normalize (.obj bl) new_cv_data = .ok (.obj (setKey bl "cv" cv))) := by
  have hm : mergeCv (.obj bl) new_cv_data = .ok (.obj (setKey bl "cv" cv)) := by
    simp [mergeCv, getItem_eq_ok hcv]
  refine ⟨hm, setKey_lookup_self bl "cv" cv, fun k hk => setKey_lookup_other bl "cv" cv k hk,
    ?_, ?_⟩
  · intro designL hlL hd hh
    refine ⟨.obj (setKey (setKey bl "cv" cv) "design" (.obj (setKey designL "highlights"
      (.obj (setKey hlL "bullet" (.str "•")))))), ?_, ?_, ?_, ?_, ?_⟩
    · rw [merge_and_normalize, hm, except_bind_ok, replace_bullet_core_mapping hd hh]
      rfl
    · rw [lookupD_of_some (setKey_lookup_self (setKey bl "cv" cv) "design" _),
        lookupD_of_some (setKey_lookup_self designL "highlights" _),
        setKey_lookup_self]
    · intro k hk
      exact setKey_lookup_other (setKey bl "cv" cv) "design" _ k hk
    · intro k hk
      rw [lookupD_of_some (setKey_lookup_self (setKey bl "cv" cv) "design" _)]
      exact setKey_lookup_other designL "highlights" _ k hk
    · intro k hk
      rw [lookupD_of_some (setKey_lookup_self (setKey bl "cv" cv) "design" _),
        lookupD_of_some (setKey_lookup_self designL "highlights" _)]
      exact setKey_lookup_other hlL "bullet" _ k hk
  · intro h
    rw [merge_and_normalize, hm, except_bind_ok, replace_bullet_core_not_mapping h]
    rfl

/-- C5 witness: the amended statement at the real base-template shape
(`design.highlights` a mapping): the bullet is rewritten to `"•"`, `cv` is
replaced, `design`'s sibling structure is otherwise preserved. -/
theorem claim_C5_merge_normalize_amended_witness :
    getKey? newCvDoc "cv" = some (.obj [("name", .str "X")]) ∧
    mergeCv (.obj [("design", .obj [("highlights", .obj [("bullet", .str "*")])]),
        ("cv", .null)]) newCvDoc
      = .ok (.obj [("design", .obj [("highlights", .obj [("bullet", .str "*")])]),
        ("cv", .obj [("name", .str "X")])]) ∧
    ∃ merged2, merge_and_normalize (.obj [
        ("design", .obj [("highlights", .obj [("bullet", .str "*")])]),
        ("cv", .null)]) newCvDoc = .ok merged2 ∧
      getKey? (lookupD (lookupD merged2 "design" .null) "highlights" .null)
        "bullet" = some (.str "•") := by
  obtain ⟨h1, _, _, h4, _⟩ := claim_C5_merge_normalize_amended
    [("design", .obj [("highlights", .obj [("bullet", .str "*")])]), ("cv", .null)]
    newCvDoc (.obj [("name", .str "X")]) rfl
  obtain ⟨m2, hm2, hb, _⟩ := h4 [("highlights", .obj [("bullet", .str "*")])]
    [("bullet", .str "*")] rfl rfl
  exact ⟨rfl, h1, m2, hm2, hb⟩

/-! ## The pipeline never removes files -/

theorem replace_bullet_core_false_snd {d : Json} {b : String}
    (h : (replace_bullet_core d b).1 = false) : (replace_bullet_core d b).2 = d := by
  cases d with
  | obj dl =>
    cases hd : getKey? (.obj dl) "design" with
    | none => simp [replace_bullet_core, hd]
    | some v =>
      cases v with
      | obj designL =>
        cases hh : getKey? (.obj designL) "highlights" with
        | none => simp [replace_bullet_core, hd, hh]
        | some w =>
          cases w with
          | obj hlL =>
            rw [replace_bullet_core_mapping hd hh] at h
            simp at h
          | str s => simp [replace_bullet_core, hd, hh]
          | num n => simp [replace_bullet_core, hd, hh]
          | bool c => simp [replace_bullet_core, hd, hh]
          | null => simp [replace_bullet_core, hd, hh]
          | arr a => simp [replace_bullet_core, hd, hh]
      | str s => simp [replace_bullet_core, hd]
      | num n => simp [replace_bullet_core, hd]
      | bool c => simp [replace_bullet_core, hd]
      | null => simp [replace_bullet_core, hd]
      | arr a => simp [replace_bullet_core, hd]
  | str s => rfl
  | num n => rfl
  | bool c => rfl
  | null => rfl
  | arr a => rfl

theorem readFile_setFile (fs : FS) (p : String) (v : Json) :
    readFile (setFile fs p v) p = some v := by
  have h := setKey_lookup_self fs p v
  simpa [readFile, setFile, getKey?] using h

theorem mem_paths_setKey : ∀ (l : List (String × Json)) (k : String) (v : Json)
    (q : String), q ∈ l.map Prod.fst → q ∈ (setKey l k v).map Prod.fst := by
  intro l k v
  induction l with
  | nil => intro q h; simp at h
  | cons e rest ih =>
    intro q h
    cases e with
    | mk k0 v0 =>
      by_cases hk : k0 = k
      · rw [setKey, if_pos (by simp [hk])]
        simp only [List.map_cons, List.mem_cons] at h ⊢
        rcases h with h | h
        · exact Or.inl (by rw [h, hk])
        · exact Or.inr h
      · rw [setKey, if_neg (by simp [hk])]
        simp only [List.map_cons, List.mem_cons] at h ⊢
        rcases h with h | h
        · exact Or.inl h
        · exact Or.inr (ih q h)

theorem mem_paths_setKey_self : ∀ (l : List (String × Json)) (k : String) (v : Json),
    k ∈ (setKey l k v).map Prod.fst := by
  intro l k v
  induction l with
  | nil => simp [setKey]
  | cons e rest ih =>
    cases e with
    | mk k0 v0 =>
      by_cases hk : k0 = k
      · rw [setKey, if_pos (by simp [hk])]
        simp
      · rw [setKey, if_neg (by simp [hk])]
        simp only [List.map_cons, List.mem_cons]
        exact Or.inr ih

theorem mem_paths_setFile {fs : FS} {p q : String} {v : Json}
    (h : q ∈ fs.map Prod.fst) : q ∈ (setFile fs p v).map Prod.fst :=
  mem_paths_setKey fs p v q h

/-- `generate_resume_pdf` never removes a file: every path present before
the call is present after it, on every control path. -/
theorem generate_resume_pdf_paths_mono (env : Env) (json_file_path : String)
    (fs : FS) (q : String) (h : q ∈ fs.map Prod.fst) :
    q ∈ ((generate_resume_pdf env json_file_path fs).2).map Prod.fst := by
  unfold generate_resume_pdf
  dsimp only
  repeat' split
  all_goals repeat' apply mem_paths_setFile
  all_goals exact h

/-- `upload_json` never removes a file. -/
theorem upload_json_paths_mono (env : Env) (b : Bool) (jd : Json) (u : String)
    (fs : FS) (q : String) (h : q ∈ fs.map Prod.fst) :
    q ∈ ((upload_json env b jd u fs).2).map Prod.fst := by
  unfold upload_json
  by_cases hb : (!b) = true
  · rw [if_pos hb]
    exact h
  · rw [if_neg hb]
    by_cases ht : (!truthy jd) = true
    · rw [if_pos ht]
      exact h
    · rw [if_neg ht]
      cases hc : pyContains jd "basics" with
      | error e => exact h
      | ok bb =>
        cases bb with
        | false => exact h
        | true =>
          dsimp only
          have h1 : q ∈ (setFile fs (INPUT_FOLDER ++ "/" ++ (u ++ "_resume.json")) jd).map
              Prod.fst := mem_paths_setFile h
          have h2 := generate_resume_pdf_paths_mono env
            (INPUT_FOLDER ++ "/" ++ (u ++ "_resume.json"))
            (setFile fs (INPUT_FOLDER ++ "/" ++ (u ++ "_resume.json")) jd) q h1
          cases hg : generate_resume_pdf env (INPUT_FOLDER ++ "/" ++ (u ++ "_resume.json"))
              (setFile fs (INPUT_FOLDER ++ "/" ++ (u ++ "_resume.json")) jd) with
          | mk res fs2 =>
            rw [hg] at h2
            cases res with
            | ok pdf => exact h2
            | error e => exact h2

/-- C2 counterexample: a concrete successful call of the upload handler
after which the saved input JSON, the merged YAML and the output PDF all
remain on disk — "no temporary file created by the call remains" is
false. -/
theorem claim_C2_cleanup_counterexample :
    (upload_json envOk true rMin "u" []).1
      = .success "temp/output/u_resume_resume.pdf" "u_resume.json" ∧
    readFile (upload_json envOk true rMin "u" []).2 "temp/input/u_resume.json"
      = some rMin ∧
    readFile (upload_json envOk true rMin "u" []).2 "temp/output/u_resume_resume.yaml"
      = some (.obj [("design", .obj [("highlights", .obj [("bullet", .str "•")])]),
          ("cv", .obj [("name", .str "X")])]) ∧
    readFile (upload_json envOk true rMin "u" []).2 "temp/output/u_resume_resume.pdf"
      = some .null :=
  ⟨rfl, rfl, rfl, rfl⟩

/-- C2 (amended): the pipeline performs no cleanup at all — `upload_json`
(and `generate_resume_pdf` inside it) only ever writes files, so every path
present before the call, and the input JSON saved by the call whenever the
request passes the body checks, remains on disk after the response,
whether the call succeeds or fails. -/
theorem claim_C2_no_cleanup_amended (env : Env) (request_is_json : Bool)
    (json_data : Json) (request_uuid : String) (fs : FS) :
    (∀ q, q ∈ fs.map Prod.fst →
      q ∈ ((upload_json env request_is_json json_data request_uuid fs).2).map Prod.fst) ∧
    (request_is_json = true → truthy json_data = true →
      pyContains json_data "basics" = .ok true →
      (INPUT_FOLDER ++ "/" ++ (request_uuid ++ "_resume.json")) ∈
        ((upload_json env request_is_json json_data request_uuid fs).2).map Prod.fst) := by
  constructor
  · intro q hq
    exact upload_json_paths_mono env request_is_json json_data request_uuid fs q hq
  · intro hb ht hc
    unfold upload_json
    rw [if_neg (by simp [hb]), if_neg (by simp [ht]), hc]
    dsimp only
    have h1 : (INPUT_FOLDER ++ "/" ++ (request_uuid ++ "_resume.json")) ∈
        (setFile fs (INPUT_FOLDER ++ "/" ++ (request_uuid ++ "_resume.json"))
          json_data).map Prod.fst :=
      mem_paths_setKey_self fs _ json_data
    have h2 := generate_resume_pdf_paths_mono env
      (INPUT_FOLDER ++ "/" ++ (request_uuid ++ "_resume.json"))
      (setFile fs (INPUT_FOLDER ++ "/" ++ (request_uuid ++ "_resume.json")) json_data)
      (INPUT_FOLDER ++ "/" ++ (request_uuid ++ "_resume.json")) h1
    cases hg : generate_resume_pdf env
        (INPUT_FOLDER ++ "/" ++ (request_uuid ++ "_resume.json"))
        (setFile fs (INPUT_FOLDER ++ "/" ++ (request_uuid ++ "_resume.json")) json_data) with
    | mk res fs2 =>
      rw [hg] at h2
      cases res with
      | ok pdf => exact h2
      | error e => exact h2

/-- C2 witness: the amended statement instantiated — a concrete call keeps
its saved input JSON on disk, and a pre-existing file survives the call. -/
theorem claim_C2_no_cleanup_amended_witness :
    (INPUT_FOLDER ++ "/" ++ ("u" ++ "_resume.json")) ∈
      ((upload_json envOk true rMin "u" []).2).map Prod.fst ∧
    "keep.txt" ∈
      ((upload_json envOk true rMin "u" [("keep.txt", .null)]).2).map Prod.fst :=
  ⟨(claim_C2_no_cleanup_amended envOk true rMin "u" []).2 rfl rfl rfl,
   (claim_C2_no_cleanup_amended envOk true rMin "u" [("keep.txt", .null)]).1
     "keep.txt" (by simp)⟩

/-- C3 counterexample: with the renderer executable absent, the run fails
with `FileNotFoundError("rendercv")` — but only after the merged YAML has
been written: the file was not on disk before the call and is on disk when
the error propagates, refuting "fails before any file is written". -/
theorem claim_C3_renderer_check_counterexample :
    (generate_resume_pdf envNoRenderer "temp/input/a.json" fsA).1
      = .error (.fileNotFound "rendercv") ∧
    readFile fsA "temp/output/a_resume.yaml" = none ∧
    readFile (generate_resume_pdf envNoRenderer "temp/input/a.json" fsA).2
        "temp/output/a_resume.yaml"
      = some (.obj [("design", .obj [("highlights", .obj [("bullet", .str "•")])]),
          ("cv", .obj [("name", .str "X")])]) :=
  ⟨rfl, rfl, rfl⟩

/-- C3 (amended): there is no pre-invocation executable check — when the
pipeline reaches the render step and the renderer executable cannot be
located, `generate_resume_pdf` fails with `FileNotFoundError("rendercv")`
(the `RendererMissing` condition) raised by the subprocess invocation
itself, and by that time the serialized merged document has already been
written to disk and remains there. -/
theorem claim_C3_renderer_missing_amended (env : Env) (json_file_path : String)
    (fs : FS) (json_data render_cv base_yaml new_cv_data merged : Json)
    (h1 : readFile fs json_file_path = some json_data)
    (h2 : init json_data = .ok render_cv)
    (h3 : env.base_yaml_file = some base_yaml)
    (h4 : env.safe_load (enhance_resume_with_gemini env.generate_content
        env.safe_load (yaml_dump render_cv)) = some new_cv_data)
    (h5 : mergeCv base_yaml new_cv_data = .ok merged)
    (h6 : env.rendererPresent = false) :
    (generate_resume_pdf env json_file_path fs).1
      = .error (.fileNotFound "rendercv") ∧
    readFile (generate_resume_pdf env json_file_path fs).2
        (OUTPUT_FOLDER ++ "/" ++ input_filename_of json_file_path ++ "_resume.yaml")
      = some ((replace_bullet_core merged "•").2) := by
  constructor
  · simp [generate_resume_pdf, h1, h2, h3, h4, h5, h6]
  · simp only [generate_resume_pdf, h1, h2, h3, h4, h5, h6]
    cases hflag : (replace_bullet_core merged "•").1 with
    | true => simp [hflag, readFile_setFile]
    | false => simp [hflag, readFile_setFile, replace_bullet_core_false_snd hflag]

/-- C3 witness: the amended statement instantiated at a concrete
environment without the renderer. -/
theorem claim_C3_renderer_missing_amended_witness :
    (generate_resume_pdf envNoRenderer "temp/input/a.json" fsA).1
      = .error (.fileNotFound "rendercv") ∧
    readFile (generate_resume_pdf envNoRenderer "temp/input/a.json" fsA).2
        (OUTPUT_FOLDER ++ "/" ++ input_filename_of "temp/input/a.json" ++ "_resume.yaml")
      = some ((replace_bullet_core (.obj [
          ("design", .obj [("highlights", .obj [("bullet", .str "*")])]),
          ("cv", .obj [("name", .str "X")])]) "•").2) :=
  claim_C3_renderer_missing_amended envNoRenderer "temp/input/a.json" fsA rMin
    (.obj [("cv", .obj [("name", .str "A"), ("location", .str ""),
      ("email", .str "e"), ("phone", .str "p"), ("website", .str ""),
      ("social_networks", .arr []), ("sections", .obj [])])])
    (.obj [("design", .obj [("highlights", .obj [("bullet", .str "*")])]),
      ("cv", .null)])
    newCvDoc
    (.obj [("design", .obj [("highlights", .obj [("bullet", .str "*")])]),
      ("cv", .obj [("name", .str "X")])])
    rfl rfl rfl rfl rfl rfl

end CVGen
